import Mathlib

/-!
# AXIS engine

A shallow embedding of `Source/AxisEngine.h` and `Source/AxisEngine.cpp`.

Numeric model.  Every `float` and `double` of the source is an exact rational
number: the arithmetic operators are the field operations of `ℚ` (no rounding,
no NaN, no infinity) and decimal literals denote their exact decimal value.
The conversion `(int) x` is exact truncation toward zero into `Int` (the 32-bit
range of the target type is not modelled).  The transcendental library functions, the
random generator and the filter kernel of the JUCE library are not part of the
repository; they are collected in the structure `Prims`.  The general theorems
quantify over all of `Prims`, assuming at most an explicitly stated range property
(`ExpOK`, `RandOK`, `SinBounded`); runs on concrete inputs use the executable instance
`refPrims`.

Where the exact model and the floating-point program part, the difference is modelled
separately: `Rounding`, `driftSpeedHzR` and `driftIntervalR` evaluate the drift interval
under an arbitrary rounding of the `float` and `double` operations, and `FVal`,
`crossModX` and `postX` evaluate the parts of the loop body that consume the filter
outputs on values that may be infinite or NaN.  Both agree with the exact model on its
domain (`driftIntervalR_exact`, `sampleStep_crossModX`, `sampleStep_postX`).
-/

namespace Axis

/-! ## Library helpers -/

/-- Modelled from the spec: `juce::jlimit (lower, upper, value)` of the JUCE library
(absent from the sources), the clamp of `value` into `[lower, upper]`. -/
def jlimit (lowerLimit upperLimit valueToConstrain : ℚ) : ℚ :=
  if valueToConstrain < lowerLimit then lowerLimit
  else if upperLimit < valueToConstrain then upperLimit
  else valueToConstrain

/-- Modelled from the spec: `juce::jmap (value0To1, targetMin, targetMax)` of the JUCE
library (absent from the sources), the linear map of the unit interval onto
`[targetMin, targetMax]`. -/
def jmap (value0To1 targetRangeMin targetRangeMax : ℚ) : ℚ :=
  targetRangeMin + value0To1 * (targetRangeMax - targetRangeMin)

/-- Modelled from the spec: `juce::jmax (a, b)` on `int` (JUCE library, absent from the
sources). -/
def jmax (a b : Int) : Int :=
  if a < b then b else a

/-- The conversion `(int) x` from a floating value: truncation toward zero. -/
def castInt (x : ℚ) : Int :=
  if 0 ≤ x then ⌊x⌋ else ⌈x⌉

/-- The value of `juce::MathConstants<float>::pi`, the binary32 number nearest to π. -/
def pi : ℚ := 13176795 / 4194304

/-- The value of `juce::MathConstants<float>::twoPi`. -/
def twoPi : ℚ := 13176795 / 2097152

/-! ## The filter object `juce::dsp::StateVariableTPTFilter<float>` -/

/-- The enumeration `juce::dsp::StateVariableTPTFilterType`. -/
inductive FilterType where
  | lowpass
  | bandpass
  | highpass
deriving DecidableEq

/-- Modelled from the spec: the state of one `juce::dsp::StateVariableTPTFilter<float>`
(JUCE library, absent from the sources): its settings and the two integrator states of
the single channel it is prepared for. -/
structure SVFilter where
  sampleRate : ℚ
  filterType : FilterType
  cutoffFrequency : ℚ
  resonance : ℚ
  s1 : ℚ
  s2 : ℚ
deriving DecidableEq

namespace SVFilter

/-- Modelled from the spec: a default-constructed filter (JUCE library defaults: 44100 Hz,
lowpass, cutoff 1000 Hz, resonance the binary32 value of `1/sqrt 2`). -/
def default : SVFilter :=
  { sampleRate := 44100, filterType := FilterType.lowpass, cutoffFrequency := 1000,
    resonance := 11863283 / 16777216, s1 := 0, s2 := 0 }

/-- Modelled from the spec: `prepare (spec)` stores the sample rate and clears the
integrator states. -/
def prepare (f : SVFilter) (sampleRate : ℚ) : SVFilter :=
  { f with sampleRate := sampleRate, s1 := 0, s2 := 0 }

/-- Modelled from the spec: `setType`. -/
def setType (f : SVFilter) (t : FilterType) : SVFilter :=
  { f with filterType := t }

/-- Modelled from the spec: `reset ()` clears the integrator states. -/
def reset (f : SVFilter) : SVFilter :=
  { f with s1 := 0, s2 := 0 }

/-- Modelled from the spec: `setResonance` stores the resonance. -/
def setResonance (f : SVFilter) (r : ℚ) : SVFilter :=
  { f with resonance := r }

/-- Modelled from the spec: `setCutoffFrequency` stores the cutoff. -/
def setCutoffFrequency (f : SVFilter) (fc : ℚ) : SVFilter :=
  { f with cutoffFrequency := fc }

end SVFilter

/-- Modelled from the spec: the bandpass difference equations of section 4.5, with the
tangent supplied by the caller.  Returns the output sample and the two new integrator
states. -/
def tptBandpass (tan : ℚ → ℚ) (f : SVFilter) (x : ℚ) : ℚ × ℚ × ℚ :=
  let g := tan (pi * f.cutoffFrequency / f.sampleRate)
  let k := 1 / f.resonance
  let a1 := 1 / (1 + g * (g + k))
  let a2 := g * a1
  let v1 := a1 * f.s1 + a2 * (x - f.s2)
  let v2 := f.s2 + g * v1
  (v1, 2 * v1 - f.s1, 2 * v2 - f.s2)

/-! ## External primitives -/

/-- The library operations the engine calls and the repository does not define:
`std::exp`, `std::exp2`, `std::sin`, `std::tanh`, `juce::Decibels::decibelsToGain`,
`juce::Random::nextFloat` (a step on the generator seed) and the kernel of
`StateVariableTPTFilter::processSample` (output sample and the two new integrator
states). -/
structure Prims where
  exp : ℚ → ℚ
  exp2 : ℚ → ℚ
  sin : ℚ → ℚ
  tanh : ℚ → ℚ
  decibelsToGain : ℚ → ℚ
  nextFloat : Int → ℚ × Int
  processSample : SVFilter → ℚ → ℚ × ℚ × ℚ

/-- The call `filter.processSample (0, x)`: the output sample and the filter afterwards. -/
def SVFilter.process (E : Prims) (f : SVFilter) (x : ℚ) : ℚ × SVFilter :=
  let r := E.processSample f x
  (r.1, { f with s1 := r.2.1, s2 := r.2.2 })

/-- Range property of `std::exp`: a negative argument gives a value strictly between
0 and 1. -/
def ExpOK (E : Prims) : Prop :=
  ∀ x : ℚ, x < 0 → 0 < E.exp x ∧ E.exp x < 1

/-- Range property of `juce::Random::nextFloat`: the value lies in `[0, 1)`. -/
def RandOK (E : Prims) : Prop :=
  ∀ seed : Int, 0 ≤ (E.nextFloat seed).1 ∧ (E.nextFloat seed).1 < 1

/-- Modelled from the spec: the 48-bit linear congruential step of `juce::Random`
(JUCE library) and the value `nextFloat` derives from it. -/
def juceNextFloat (seed : Int) : ℚ × Int :=
  let seed1 := (seed * 25214903917 + 11) % 281474976710656
  let value : ℚ := ((seed1 / 65536 : Int) : ℚ) / 4294967296
  (min value (1 - 1 / 8388608), seed1)

/-- A concrete, executable choice of the primitives, used to run the engine on
concrete inputs. -/
def refPrims : Prims :=
  { exp := fun x => if x < 0 then 1 / (1 - x) else 1 + x
    exp2 := fun x => (2 : ℚ) ^ ⌊x⌋
    sin := fun x => 2 * x / (1 + x * x)
    tanh := fun x => x / (1 + |x|)
    decibelsToGain := fun x => (10 : ℚ) ^ ⌊x / 20⌋
    nextFloat := juceNextFloat
    processSample := tptBandpass (fun x => x) }

/-! ## Engine state -/

/-- The data members of `class AxisEngine` (AxisEngine.h). -/
structure AxisEngine where
  sr : ℚ
  phaseA : ℚ
  phaseB : ℚ
  phaseC : ℚ
  baseFreq : ℚ
  rotation : ℚ
  body : ℚ
  load : ℚ
  mass : ℚ
  wear : ℚ
  crossModA : ℚ
  crossModB : ℚ
  rotationSmoothed : ℚ
  driftA : ℚ
  driftB : ℚ
  driftTargetA : ℚ
  driftTargetB : ℚ
  random : Int
  spectralPhase : ℚ
  smoothedFcA : ℚ
  smoothedFcB : ℚ
  dampL : ℚ
  dampR : ℚ
  phaseSub : ℚ
  filterA_L : SVFilter
  filterA_R : SVFilter
  filterB_L : SVFilter
  filterB_R : SVFilter

/-- A default-constructed engine: the default member initialisers of AxisEngine.h, for a
given seed of the random generator. -/
def AxisEngine.init (seed : Int) : AxisEngine :=
  { sr := 44100
    phaseA := 0, phaseB := 0, phaseC := 0
    baseFreq := 55
    rotation := 0.3, body := 0.5, load := 0.4, mass := 0.5, wear := 0.2
    crossModA := 0, crossModB := 0
    rotationSmoothed := 0
    driftA := 0, driftB := 0, driftTargetA := 0, driftTargetB := 0
    random := seed
    spectralPhase := 0
    smoothedFcA := 400, smoothedFcB := 600
    dampL := 0, dampR := 0
    phaseSub := 0
    filterA_L := SVFilter.default, filterA_R := SVFilter.default
    filterB_L := SVFilter.default, filterB_R := SVFilter.default }

/-- The five parameters lie in the unit interval. -/
def ParamsInRange (s : AxisEngine) : Prop :=
  (0 ≤ s.rotation ∧ s.rotation ≤ 1) ∧ (0 ≤ s.body ∧ s.body ≤ 1) ∧
  (0 ≤ s.load ∧ s.load ≤ 1) ∧ (0 ≤ s.mass ∧ s.mass ≤ 1) ∧ (0 ≤ s.wear ∧ s.wear ≤ 1)

/-! ## `prepare` and the setters -/

/-- The function `AxisEngine::prepare`. -/
def prepare (s : AxisEngine) (sampleRate : ℚ) : AxisEngine :=
  { s with
    sr := sampleRate
    phaseA := 0, phaseB := 0, phaseC := 0
    phaseSub := 0
    spectralPhase := 0
    smoothedFcA := 400
    smoothedFcB := 600
    dampL := 0, dampR := 0
    driftA := 0, driftB := 0
    driftTargetA := 0, driftTargetB := 0
    filterA_L := ((s.filterA_L.prepare sampleRate).setType FilterType.bandpass).reset
    filterA_R := ((s.filterA_R.prepare sampleRate).setType FilterType.bandpass).reset
    filterB_L := ((s.filterB_L.prepare sampleRate).setType FilterType.bandpass).reset
    filterB_R := ((s.filterB_R.prepare sampleRate).setType FilterType.bandpass).reset }

/-- The function `AxisEngine::setRotation`. -/
def setRotation (s : AxisEngine) (value : ℚ) : AxisEngine :=
  { s with rotation := jlimit 0 1 value }

/-- The function `AxisEngine::setBody`. -/
def setBody (s : AxisEngine) (value : ℚ) : AxisEngine :=
  { s with body := jlimit 0 1 value }

/-- The function `AxisEngine::setLoad`. -/
def setLoad (s : AxisEngine) (value : ℚ) : AxisEngine :=
  { s with load := jlimit 0 1 value }

/-- The function `AxisEngine::setMass`. -/
def setMass (s : AxisEngine) (value : ℚ) : AxisEngine :=
  { s with mass := jlimit 0 1 value }

/-- The function `AxisEngine::setWear`. -/
def setWear (s : AxisEngine) (value : ℚ) : AxisEngine :=
  { s with wear := jlimit 0 1 value }

/-- The static function `diodeClip`. -/
def diodeClip (x drive asym : ℚ) : ℚ :=
  let kPos := drive
  let kNeg := drive * asym
  if x ≥ 0 then x / (1 + kPos * |x|)
  else x / (1 + kNeg * |x|)

/-! ## The audio buffer -/

/-- Modelled from the spec: the part of `juce::AudioBuffer<float>` (JUCE library) the
engine uses: a number of samples and one list of samples per channel. -/
structure AudioBuffer where
  numSamples : Nat
  channels : List (List ℚ)
deriving DecidableEq

namespace AudioBuffer

/-- Modelled from the spec: `getNumSamples ()`. -/
def getNumSamples (b : AudioBuffer) : Nat :=
  b.numSamples

/-- Modelled from the spec: `getNumChannels ()`. -/
def getNumChannels (b : AudioBuffer) : Nat :=
  b.channels.length

/-- Modelled from the spec: `clear ()` zeroes `numSamples` samples of every channel. -/
def clear (b : AudioBuffer) : AudioBuffer :=
  { b with channels := b.channels.map (fun _ => List.replicate b.numSamples 0) }

/-- The assignment `pointer[i] = v` through the write pointer of channel `ch`.  A write
outside the buffer (no such channel, or an index past the channel) is dropped. -/
def write (b : AudioBuffer) (ch i : Nat) (v : ℚ) : AudioBuffer :=
  { b with channels := b.channels.set ch ((b.channels.getD ch []).set i v) }

end AudioBuffer

/-! ## `process`: the block-level section -/

/-- The local `driftAmount` of `process`. -/
def driftAmount (s : AxisEngine) : ℚ :=
  jmap s.wear 0.0 0.15

/-- The local `driftSpeedHz` of `process`. -/
def driftSpeedHz (s : AxisEngine) : ℚ :=
  jmap s.wear 0.1 2.0

/-- The local `driftInterval` of `process`. -/
def driftInterval (s : AxisEngine) : Int :=
  jmax 1 (castInt (s.sr / driftSpeedHz s))

/-- The local `torqueSpeed` of `process`. -/
def torqueSpeed (s : AxisEngine) : ℚ :=
  jmap s.mass 0.2 0.01

/-- The statement `rotationSmoothed += torqueSpeed * (rotation - rotationSmoothed)`. -/
def updateRotation (s : AxisEngine) : AxisEngine :=
  { s with rotationSmoothed := s.rotationSmoothed + torqueSpeed s * (s.rotation - s.rotationSmoothed) }

/-- The local `rotationRate` of `process` (read after the update of `rotationSmoothed`). -/
def rotationRate (s : AxisEngine) : ℚ :=
  let rotationRateBase := jmap s.rotationSmoothed 0.0005 0.03
  rotationRateBase * jmap s.mass 1.0 0.35

/-- The local `sweepOctaves` of `process`. -/
def sweepOctaves (s : AxisEngine) : ℚ :=
  let sweepOctavesBase := jmap s.rotationSmoothed 0.2 3.0
  sweepOctavesBase * jmap s.mass 1.0 0.45

/-- The local `baseCentre` of `process`. -/
def baseCentre (s : AxisEngine) : ℚ :=
  jmap s.body 80.0 1200.0

/-- The local `phaseOffset` of `process`. -/
def phaseOffset : ℚ :=
  pi * 0.5

/-- The local `a` of `process`, the coefficient of the inertia smoothing. -/
def inertiaCoeff (E : Prims) (s : AxisEngine) : ℚ :=
  let tauSeconds := jmap s.mass 0.02 0.60
  E.exp (-1.0 / (tauSeconds * s.sr))

/-- The local `bodyLow` of `process`. -/
def bodyLow (s : AxisEngine) : ℚ :=
  jlimit 0.0 1.0 (s.body * 3.0)

/-- The local `bodyMid` of `process`. -/
def bodyMid (s : AxisEngine) : ℚ :=
  jlimit 0.0 1.0 (s.body * 3.0 - 1.0)

/-- The local `bodyHigh` of `process`. -/
def bodyHigh (s : AxisEngine) : ℚ :=
  jlimit 0.0 1.0 (s.body * 3.0 - 2.0)

/-- The local `crossAmount` of `process`. -/
def crossAmount (s : AxisEngine) : ℚ :=
  bodyHigh s * jmap s.mass 0.4 0.1

/-- The local `resonance` of `process`, after the load scaling. -/
def resonance (s : AxisEngine) : ℚ :=
  let resLow := jmap (bodyLow s) 0.25 1.0
  let resMid := jmap (bodyMid s) 1.0 3.5
  let resHigh := jmap (bodyHigh s) 3.5 6.5
  let resonance :=
    resLow * (1.0 - bodyMid s)
    + resMid * (1.0 - bodyHigh s)
    + resHigh * bodyHigh s
  resonance * jmap s.load 1.0 0.65

/-- The local `qSkew` of `process`. -/
def qSkew (s : AxisEngine) : ℚ :=
  bodyHigh s * 0.35

/-- The four `setResonance` calls of `process`. -/
def setResonances (s : AxisEngine) : AxisEngine :=
  { s with
    filterA_L := s.filterA_L.setResonance (resonance s * (1.0 + qSkew s))
    filterA_R := s.filterA_R.setResonance (resonance s * (1.0 + qSkew s))
    filterB_L := s.filterB_L.setResonance (resonance s * (1.0 - qSkew s))
    filterB_R := s.filterB_R.setResonance (resonance s * (1.0 - qSkew s)) }

/-- The local `preGain` of `process`. -/
def preGain (E : Prims) (s : AxisEngine) : ℚ :=
  let preGainDb := jmap s.load 0.0 24.0
  E.decibelsToGain preGainDb

/-- The local `postTrim` of `process`. -/
def postTrim (s : AxisEngine) : ℚ :=
  jmap s.load 1.0 0.25

/-- The local `subGain` of `process`. -/
def subGain (s : AxisEngine) : ℚ :=
  jmap s.mass 0.0 0.35

/-- The local `dampMix` of `process`. -/
def dampMix (s : AxisEngine) : ℚ :=
  jmap s.mass 0.0 0.65

/-- The local `g` of `process`, the coefficient of the damping one-pole. -/
def dampCoeff (E : Prims) (s : AxisEngine) : ℚ :=
  let dampCut := jmap s.mass 10000.0 1200.0
  let x := E.exp (-twoPi * dampCut / s.sr)
  1.0 - x

/-- The local `instability` of `process`.  (The local `wearDrive` that follows it in the
source is never read and is not modelled.) -/
def instability (s : AxisEngine) : ℚ :=
  jmap s.wear 0.0 0.003

/-- The block-level constants the sample loop of `process` reads. -/
structure Block where
  driftAmount : ℚ
  driftInterval : Int
  rotationRate : ℚ
  sweepOctaves : ℚ
  baseCentre : ℚ
  phaseOffset : ℚ
  a : ℚ
  bodyHigh : ℚ
  crossAmount : ℚ
  preGain : ℚ
  postTrim : ℚ
  subGain : ℚ
  dampMix : ℚ
  g : ℚ
  instability : ℚ

/-- The state after the block-level section of `process` (lines 86 to 160): the update
of `rotationSmoothed` and the four `setResonance` calls. -/
def blockState (s : AxisEngine) : AxisEngine :=
  setResonances (updateRotation s)

/-- The constants computed by the block-level section of `process`.  Those that read
`rotationSmoothed` read it after its update. -/
def blockConsts (E : Prims) (s : AxisEngine) : Block :=
  { driftAmount := driftAmount s
    driftInterval := driftInterval s
    rotationRate := rotationRate (updateRotation s)
    sweepOctaves := sweepOctaves (updateRotation s)
    baseCentre := baseCentre s
    phaseOffset := phaseOffset
    a := inertiaCoeff E s
    bodyHigh := bodyHigh s
    crossAmount := crossAmount s
    preGain := preGain E s
    postTrim := postTrim s
    subGain := subGain s
    dampMix := dampMix s
    g := dampCoeff E s
    instability := instability s }

/-! ## `process`: the sample loop -/

/-- One iteration of the sample loop of `process` (lines 163 to 312) for loop index `i`:
the engine state after the iteration and the two values assigned to `left[i]` and
`right[i]`.  The remainder `i % driftInterval` has a non-negative dividend and a positive
divisor, where the remainder of C++ and of `Int` agree. -/
def sampleStep (E : Prims) (c : Block) (i : Nat) (s : AxisEngine) : AxisEngine × ℚ × ℚ :=
  -- Drift update
  let retarget : Bool := decide ((i : Int) % c.driftInterval = 0)
  let drawA := E.nextFloat s.random
  let drawB := E.nextFloat drawA.2
  let driftTargetA := if retarget then drawA.1 * 2.0 - 1.0 else s.driftTargetA
  let driftTargetB := if retarget then drawB.1 * 2.0 - 1.0 else s.driftTargetB
  let random := if retarget then drawB.2 else s.random
  let driftA := s.driftA + 0.0005 * (driftTargetA - s.driftA)
  let driftB := s.driftB + 0.0005 * (driftTargetB - s.driftB)
  -- Spectral rotation phase
  let spectralPhase0 := s.spectralPhase + c.rotationRate / s.sr
  let spectralPhase := if spectralPhase0 > 1.0 then spectralPhase0 - 1.0 else spectralPhase0
  let phi := spectralPhase * twoPi
  -- Rotating modulators
  let modA := E.sin phi
  let modB := E.sin (phi + c.phaseOffset)
  -- Exponential frequency sweep
  let fcA0 := c.baseCentre * E.exp2 (modA * c.sweepOctaves)
  let fcB0 := c.baseCentre * E.exp2 (modB * c.sweepOctaves)
  -- WEAR drift on filter centers
  let fcA1 := fcA0 * (1.0 + driftA * c.driftAmount)
  let fcB1 := fcB0 * (1.0 + driftB * c.driftAmount)
  -- Safety clamp
  let fcA := jlimit 20.0 18000.0 fcA1
  let fcB := jlimit 20.0 18000.0 fcB1
  -- MASS inertia smoothing of cutoff
  let smoothedFcA0 := c.a * s.smoothedFcA + (1.0 - c.a) * fcA
  let smoothedFcB0 := c.a * s.smoothedFcB + (1.0 - c.a) * fcB
  let fAL := s.filterA_L.setCutoffFrequency smoothedFcA0
  let fAR := s.filterA_R.setCutoffFrequency smoothedFcA0
  let fBL := s.filterB_L.setCutoffFrequency smoothedFcB0
  let fBR := s.filterB_R.setCutoffFrequency smoothedFcB0
  -- Oscillator stack
  let freqA := s.baseFreq * (1.0 + c.instability * driftA)
  let freqB := s.baseFreq * 1.01 * (1.0 - c.instability * driftB)
  let freqC := s.baseFreq * 0.5
  let phaseA0 := s.phaseA + freqA / s.sr
  let phaseB0 := s.phaseB + freqB / s.sr
  let phaseC0 := s.phaseC + freqC / s.sr
  let phaseA := phaseA0 - (castInt phaseA0 : ℚ)
  let phaseB := phaseB0 - (castInt phaseB0 : ℚ)
  let phaseC := phaseC0 - (castInt phaseC0 : ℚ)
  let sineA := E.sin (twoPi * phaseA)
  let sineB := E.sin (twoPi * phaseB)
  -- Soft wavefold
  let foldAmount := 1.0 + s.load * 4.0
  let folded0 := E.tanh (sineA * foldAmount)
  -- Secondary fold
  let folded := E.tanh (folded0 * (1.5 + s.body * 2.0))
  let osc0 := (sineA * 0.3) + (sineB * 0.2) + (folded * 0.5)
  let grind := osc0 * |osc0|
  let osc1 := jmap c.bodyHigh osc0 grind
  -- Sub layer (MASS)
  let phaseSub0 := s.phaseSub + (s.baseFreq * 0.5) / s.sr
  let phaseSub := phaseSub0 - (castInt phaseSub0 : ℚ)
  let sub := E.sin (twoPi * phaseSub)
  let osc := osc1 + sub * c.subGain
  -- LOAD drive + excitation
  let driven := E.tanh (osc * c.preGain) * c.postTrim
  -- BODY high = stressed input (pre-filter)
  let stress := 1.0 + c.bodyHigh * 0.6
  let stressed := E.tanh (driven * stress)
  -- Filter network
  let rAL := fAL.process E stressed
  let rAR := fAR.process E stressed
  let rBL := fBL.process E stressed
  let rBR := fBR.process E stressed
  let outA_L := rAL.1
  let outA_R := rAR.1
  let outB_L := rBL.1
  let outB_R := rBR.1
  -- Cross modulation between filters
  let energyA := 0.5 * (|outA_L| + |outA_R|)
  let energyB := 0.5 * (|outB_L| + |outB_R|)
  let crossModA := s.crossModA + 0.001 * (energyA - s.crossModA)
  let crossModB := s.crossModB + 0.001 * (energyB - s.crossModB)
  let smoothedFcA1 := smoothedFcA0 * (1.0 + c.crossAmount * crossModB)
  let smoothedFcB1 := smoothedFcB0 * (1.0 + c.crossAmount * crossModA)
  let smoothedFcA := jlimit 20.0 18000.0 smoothedFcA1
  let smoothedFcB := jlimit 20.0 18000.0 smoothedFcB1
  -- Stereo spectral rotation weight
  let stereoPhase := spectralPhase * twoPi
  let width := jmap s.rotationSmoothed 0.05 1.0
  let weightL := jlimit 0.0 1.0 (0.5 + 0.5 * width * E.sin stereoPhase)
  let weightR := jlimit 0.0 1.0 (0.5 + 0.5 * width * E.sin (stereoPhase + pi))
  -- Crossfade between filter A and B per channel
  let outL0 := outA_L * weightL + outB_L * (1.0 - weightL)
  let outR0 := outA_R * weightR + outB_R * (1.0 - weightR)
  -- WEAR post saturation
  let diodeDrive := jmap s.wear 0.5 6.0
  let asym := jmap c.bodyHigh 1.0 2.2
  let outL1 := diodeClip outL0 diodeDrive asym
  let outR1 := diodeClip outR0 diodeDrive asym
  -- Mid grit
  let gritL := (outL1 * outL1 * outL1) - outL1
  let outL := outL1 + gritL * s.body * 0.02
  let gritR := (outR1 * outR1 * outR1) - outR1
  let outR := outR1 + gritR * s.body * 0.02
  -- MASS damping (1 pole lowpass)
  let dampL := s.dampL + c.g * (outL - s.dampL)
  let dampR := s.dampR + c.g * (outR - s.dampR)
  -- Blend damp/raw
  ({ s with
     driftTargetA := driftTargetA, driftTargetB := driftTargetB, random := random
     driftA := driftA, driftB := driftB
     spectralPhase := spectralPhase
     phaseA := phaseA, phaseB := phaseB, phaseC := phaseC, phaseSub := phaseSub
     crossModA := crossModA, crossModB := crossModB
     smoothedFcA := smoothedFcA, smoothedFcB := smoothedFcB
     dampL := dampL, dampR := dampR
     filterA_L := rAL.2, filterA_R := rAR.2, filterB_L := rBL.2, filterB_R := rBR.2 },
   outL * (1.0 - c.dampMix) + dampL * c.dampMix,
   outR * (1.0 - c.dampMix) + dampR * c.dampMix)

/-- One iteration of the sample loop together with its two writes `left[i] = ...` and
`right[i] = ...`, where `left` and `right` are the write pointers of the channels with
these indices. -/
def loopBody (E : Prims) (c : Block) (left right : Nat) (sb : AxisEngine × AudioBuffer)
    (i : Nat) : AxisEngine × AudioBuffer :=
  let r := sampleStep E c i sb.1
  (r.1, (sb.2.write left i r.2.1).write right i r.2.2)

/-- The first `n` iterations of `for (int i = 0; i < numSamples; ++i)`. -/
def sampleLoop (E : Prims) (c : Block) (left right : Nat) (n : Nat)
    (sb : AxisEngine × AudioBuffer) : AxisEngine × AudioBuffer :=
  (List.range n).foldl (loopBody E c left right) sb

/-- The state and buffer reached inside `process` after the block-level section and the
first `n` iterations of the sample loop. -/
def processUpTo (E : Prims) (s : AxisEngine) (buffer : AudioBuffer) (n : Nat) :
    AxisEngine × AudioBuffer :=
  let buffer := buffer.clear
  let numCh := buffer.getNumChannels
  let left := 0
  let right := if numCh > 1 then 1 else 0
  sampleLoop E (blockConsts E s) left right n (blockState s, buffer)

/-- The function `AxisEngine::process`: the engine state and the buffer afterwards. -/
def process (E : Prims) (s : AxisEngine) (buffer : AudioBuffer) : AxisEngine × AudioBuffer :=
  processUpTo E s buffer buffer.clear.getNumSamples

/-- A sequence of consecutive `process` calls, one per buffer; the engine state afterwards. -/
def processBlocks (E : Prims) (s : AxisEngine) (buffers : List AudioBuffer) : AxisEngine :=
  buffers.foldl (fun s b => (process E s b).1) s

/-! ## Invariants of the sample loop -/

/-- Invariant of the oscillator stack: parameters in range, positive sample rate, base
frequency 55 Hz, drift values and drift targets in `[-1, 1]`, oscillator phases in
`[0, 1)`. -/
def OscInv (s : AxisEngine) : Prop :=
  ParamsInRange s ∧ 0 < s.sr ∧ s.baseFreq = 55
    ∧ ((-1 ≤ s.driftTargetA ∧ s.driftTargetA ≤ 1) ∧ (-1 ≤ s.driftTargetB ∧ s.driftTargetB ≤ 1))
    ∧ ((-1 ≤ s.driftA ∧ s.driftA ≤ 1) ∧ (-1 ≤ s.driftB ∧ s.driftB ≤ 1))
    ∧ ((0 ≤ s.phaseA ∧ s.phaseA < 1) ∧ (0 ≤ s.phaseB ∧ s.phaseB < 1)
      ∧ (0 ≤ s.phaseC ∧ s.phaseC < 1) ∧ (0 ≤ s.phaseSub ∧ s.phaseSub < 1))

/-- Invariant of the damping one-pole: parameters in range, positive sample rate, both
damping states within `[-53/25, 53/25]`. -/
def DampInv (s : AxisEngine) : Prop :=
  ParamsInRange s ∧ 0 < s.sr
    ∧ (-(53 / 25) ≤ s.dampL ∧ s.dampL ≤ 53 / 25) ∧ (-(53 / 25) ≤ s.dampR ∧ s.dampR ≤ 53 / 25)

/-- Every sample of every channel of a buffer lies in `[-4, 4]`. -/
def BufferBounded (b : AudioBuffer) : Prop :=
  ∀ ch ∈ b.channels, ∀ x ∈ ch, -4 ≤ x ∧ x ≤ (4 : ℚ)

/-- The engine of the long run below: rotation 0, mass 0, `rotationSmoothed` 0, at
16000 Hz. -/
def SlowRotation (s : AxisEngine) : Prop :=
  s.rotation = 0 ∧ s.mass = 0 ∧ s.rotationSmoothed = 0 ∧ s.sr = 16000

/-- A stereo buffer of `n` samples, all zero. -/
def AudioBuffer.silent (n : Nat) : AudioBuffer :=
  { numSamples := n, channels := [List.replicate n 0, List.replicate n 0] }

/-- Modelled from the spec: `getSample (channel, index)` of `juce::AudioBuffer<float>`
(JUCE library), the sample at a position of a channel. -/
def AudioBuffer.getSample (b : AudioBuffer) (ch i : Nat) : ℚ :=
  (b.channels.getD ch []).getD i 0

/-- Every channel of the buffer holds `numSamples` samples. -/
def AudioBuffer.WellFormed (b : AudioBuffer) : Prop :=
  ∀ ch ∈ b.channels, ch.length = b.numSamples

/-- The local `weightL` of the sample loop before its clamp (line 279), read on the engine
state after the phase advance of the iteration. -/
def weightL (E : Prims) (t : AxisEngine) : ℚ :=
  let stereoPhase := t.spectralPhase * twoPi
  let width := jmap t.rotationSmoothed 0.05 1.0
  0.5 + 0.5 * width * E.sin stereoPhase

/-- The local `weightR` of the sample loop before its clamp (line 280). -/
def weightR (E : Prims) (t : AxisEngine) : ℚ :=
  let stereoPhase := t.spectralPhase * twoPi
  let width := jmap t.rotationSmoothed 0.05 1.0
  0.5 + 0.5 * width * E.sin (stereoPhase + pi)

/-- The two roundings of the floating-point operations of the source: `r32` to `float`
and `r64` to `double`.  Only what every rounding mode of IEEE 754 provides is recorded:
both are monotone, rounding twice is rounding once, and 0 is not moved. -/
structure Rounding where
  r32 : ℚ → ℚ
  r64 : ℚ → ℚ
  mono32 : Monotone r32
  mono64 : Monotone r64
  idem32 : ∀ x : ℚ, r32 (r32 x) = r32 x
  zero32 : r32 0 = 0
  zero64 : r64 0 = 0

/-- Exact arithmetic as a rounding: nothing is rounded. -/
def Rounding.exact : Rounding :=
  { r32 := fun x => x
    r64 := fun x => x
    mono32 := fun _ _ h => h
    mono64 := fun _ _ h => h
    idem32 := fun _ => rfl
    zero32 := rfl
    zero64 := rfl }

/-- The local `driftSpeedHz` of `process` with its roundings made explicit:
`jmap (wear, 0.1f, 2.0f) = 0.1f + wear * (2.0f - 0.1f)`, every literal and every operation
rounded to `float`. -/
def driftSpeedHzR (R : Rounding) (wear : ℚ) : ℚ :=
  R.r32 (R.r32 0.1 + R.r32 (wear * R.r32 (R.r32 2.0 - R.r32 0.1)))

/-- The local `driftInterval` of `process` with its roundings made explicit: the quotient
`sr / driftSpeedHz` is a `double` division, converted by `(int)`. -/
def driftIntervalR (R : Rounding) (wear sr : ℚ) : Int :=
  jmax 1 (castInt (R.r64 (sr / driftSpeedHzR R wear)))

/-- A rounding upward to the grid of multiples of `2^-27`, exact on `double`.  It sends
the literal `0.1` to 13421773/134217728, the value of `0.1f`. -/
def Rounding.grid : Rounding :=
  { r32 := fun x => (⌈x * 134217728⌉ : ℚ) / 134217728
    r64 := fun x => x
    mono32 := fun a b h => by
      have h1 : ⌈a * 134217728⌉ ≤ ⌈b * 134217728⌉ :=
        Int.ceil_le_ceil (mul_le_mul_of_nonneg_right h (by norm_num))
      have h2 : ((⌈a * 134217728⌉ : Int) : ℚ) ≤ ((⌈b * 134217728⌉ : Int) : ℚ) := by
        exact_mod_cast h1
      exact div_le_div_of_nonneg_right h2 (by norm_num)
    mono64 := fun _ _ h => h
    idem32 := fun x => by
      have h : (⌈x * 134217728⌉ : ℚ) / 134217728 * 134217728 = (⌈x * 134217728⌉ : ℚ) := by
        field_simp
      simp only [h, Int.ceil_intCast]
    zero32 := by simp
    zero64 := rfl }

/-- The four samples the filter network returns in one iteration (lines 252 to 256). -/
structure FilterOut where
  outA_L : ℚ
  outA_R : ℚ
  outB_L : ℚ
  outB_R : ℚ

/-- The outputs of the four filter stages in the iteration with loop index `i`: the part
of the loop body from the drift update to the filter network (lines 165 to 256). -/
def filterOutputs (E : Prims) (c : Block) (i : Nat) (s : AxisEngine) : FilterOut :=
  -- Drift update
  let retarget : Bool := decide ((i : Int) % c.driftInterval = 0)
  let drawA := E.nextFloat s.random
  let drawB := E.nextFloat drawA.2
  let driftTargetA := if retarget then drawA.1 * 2.0 - 1.0 else s.driftTargetA
  let driftTargetB := if retarget then drawB.1 * 2.0 - 1.0 else s.driftTargetB
  let driftA := s.driftA + 0.0005 * (driftTargetA - s.driftA)
  let driftB := s.driftB + 0.0005 * (driftTargetB - s.driftB)
  -- Spectral rotation phase
  let spectralPhase0 := s.spectralPhase + c.rotationRate / s.sr
  let spectralPhase := if spectralPhase0 > 1.0 then spectralPhase0 - 1.0 else spectralPhase0
  let phi := spectralPhase * twoPi
  -- Rotating modulators
  let modA := E.sin phi
  let modB := E.sin (phi + c.phaseOffset)
  -- Exponential frequency sweep
  let fcA0 := c.baseCentre * E.exp2 (modA * c.sweepOctaves)
  let fcB0 := c.baseCentre * E.exp2 (modB * c.sweepOctaves)
  -- WEAR drift on filter centers
  let fcA1 := fcA0 * (1.0 + driftA * c.driftAmount)
  let fcB1 := fcB0 * (1.0 + driftB * c.driftAmount)
  -- Safety clamp
  let fcA := jlimit 20.0 18000.0 fcA1
  let fcB := jlimit 20.0 18000.0 fcB1
  -- MASS inertia smoothing of cutoff
  let smoothedFcA0 := c.a * s.smoothedFcA + (1.0 - c.a) * fcA
  let smoothedFcB0 := c.a * s.smoothedFcB + (1.0 - c.a) * fcB
  let fAL := s.filterA_L.setCutoffFrequency smoothedFcA0
  let fAR := s.filterA_R.setCutoffFrequency smoothedFcA0
  let fBL := s.filterB_L.setCutoffFrequency smoothedFcB0
  let fBR := s.filterB_R.setCutoffFrequency smoothedFcB0
  -- Oscillator stack
  let freqA := s.baseFreq * (1.0 + c.instability * driftA)
  let freqB := s.baseFreq * 1.01 * (1.0 - c.instability * driftB)
  let phaseA0 := s.phaseA + freqA / s.sr
  let phaseB0 := s.phaseB + freqB / s.sr
  let phaseA := phaseA0 - (castInt phaseA0 : ℚ)
  let phaseB := phaseB0 - (castInt phaseB0 : ℚ)
  let sineA := E.sin (twoPi * phaseA)
  let sineB := E.sin (twoPi * phaseB)
  -- Soft wavefold
  let foldAmount := 1.0 + s.load * 4.0
  let folded0 := E.tanh (sineA * foldAmount)
  -- Secondary fold
  let folded := E.tanh (folded0 * (1.5 + s.body * 2.0))
  let osc0 := (sineA * 0.3) + (sineB * 0.2) + (folded * 0.5)
  let grind := osc0 * |osc0|
  let osc1 := jmap c.bodyHigh osc0 grind
  -- Sub layer (MASS)
  let phaseSub0 := s.phaseSub + (s.baseFreq * 0.5) / s.sr
  let phaseSub := phaseSub0 - (castInt phaseSub0 : ℚ)
  let sub := E.sin (twoPi * phaseSub)
  let osc := osc1 + sub * c.subGain
  -- LOAD drive + excitation
  let driven := E.tanh (osc * c.preGain) * c.postTrim
  -- BODY high = stressed input (pre-filter)
  let stress := 1.0 + c.bodyHigh * 0.6
  let stressed := E.tanh (driven * stress)
  -- Filter network
  let rAL := fAL.process E stressed
  let rAR := fAR.process E stressed
  let rBL := fBL.process E stressed
  let rBR := fBR.process E stressed
  let outA_L := rAL.1
  let outA_R := rAR.1
  let outB_L := rBL.1
  let outB_R := rBR.1
  { outA_L := outA_L, outA_R := outA_R, outB_L := outB_L, outB_R := outB_R }

/-! ## Non-finite values

The engine state and the samples are `float`.  Besides the finite values, a `float` can be
an infinity or NaN, and the filter kernel of the library can return them.  The exact model
above has finite values only; the definitions of this section evaluate the two parts of the
loop body that consume the filter outputs on values that may be non-finite, with the IEEE
754 rules for them (finite results are exact, and the sign of a zero is not tracked). -/

/-- A `float` value: finite, an infinity, or NaN. -/
inductive FVal where
  | fin (q : ℚ)
  | pinf
  | ninf
  | nan
deriving DecidableEq

namespace FVal

/-- Negation. -/
def neg : FVal → FVal
  | fin a => fin (-a)
  | pinf => ninf
  | ninf => pinf
  | nan => nan

/-- Addition: NaN propagates and the sum of opposite infinities is NaN. -/
def add : FVal → FVal → FVal
  | nan, _ => nan
  | _, nan => nan
  | fin a, fin b => fin (a + b)
  | fin _, pinf => pinf
  | fin _, ninf => ninf
  | pinf, fin _ => pinf
  | ninf, fin _ => ninf
  | pinf, pinf => pinf
  | ninf, ninf => ninf
  | pinf, ninf => nan
  | ninf, pinf => nan

/-- Subtraction. -/
def sub (a b : FVal) : FVal :=
  add a (neg b)

/-- The product of an infinity and a finite value: NaN at 0, otherwise an infinity with
the product of the signs. -/
def infTimes (positive : Bool) (a : ℚ) : FVal :=
  if a = 0 then nan
  else if (0 < a) = positive then pinf
  else ninf

/-- Multiplication: NaN propagates and zero times an infinity is NaN. -/
def mul : FVal → FVal → FVal
  | nan, _ => nan
  | _, nan => nan
  | fin a, fin b => fin (a * b)
  | fin a, pinf => infTimes true a
  | fin a, ninf => infTimes false a
  | pinf, fin b => infTimes true b
  | ninf, fin b => infTimes false b
  | pinf, pinf => pinf
  | ninf, ninf => pinf
  | pinf, ninf => ninf
  | ninf, pinf => ninf

/-- Division: NaN propagates, an infinity over an infinity and zero over zero are NaN, a
finite value over an infinity is zero, a non-zero value over zero is an infinity. -/
def div : FVal → FVal → FVal
  | nan, _ => nan
  | _, nan => nan
  | fin a, fin b =>
    if b = 0 then (if a = 0 then nan else if 0 < a then pinf else ninf) else fin (a / b)
  | fin _, pinf => fin 0
  | fin _, ninf => fin 0
  | pinf, fin b => if 0 ≤ b then pinf else ninf
  | ninf, fin b => if 0 ≤ b then ninf else pinf
  | pinf, pinf => nan
  | ninf, ninf => nan
  | pinf, ninf => nan
  | ninf, pinf => nan

/-- The function `std::abs`. -/
def abs : FVal → FVal
  | fin a => fin |a|
  | pinf => pinf
  | ninf => pinf
  | nan => nan

/-- The comparison `a < b`: false as soon as an operand is NaN. -/
def lt : FVal → FVal → Bool
  | nan, _ => false
  | _, nan => false
  | fin a, fin b => decide (a < b)
  | fin _, pinf => true
  | fin _, ninf => false
  | pinf, _ => false
  | ninf, fin _ => true
  | ninf, pinf => true
  | ninf, ninf => false

/-- The comparison `a >= b`: false as soon as an operand is NaN. -/
def ge : FVal → FVal → Bool
  | nan, _ => false
  | _, nan => false
  | fin a, fin b => decide (a ≥ b)
  | fin _, pinf => false
  | fin _, ninf => true
  | pinf, _ => true
  | ninf, fin _ => false
  | ninf, pinf => false
  | ninf, ninf => true

/-- The value is finite and lies in `[lo, hi]`. -/
def Within (lo hi : ℚ) : FVal → Prop
  | fin a => lo ≤ a ∧ a ≤ hi
  | pinf => False
  | ninf => False
  | nan => False

end FVal

/-- The function `juce::jlimit` on `float` values (JUCE library:
`v < lo ? lo : (hi < v ? hi : v)`). -/
def jlimitX (lowerLimit upperLimit valueToConstrain : FVal) : FVal :=
  if FVal.lt valueToConstrain lowerLimit then lowerLimit
  else if FVal.lt upperLimit valueToConstrain then upperLimit
  else valueToConstrain

/-- The static function `diodeClip` on `float` values. -/
def diodeClipX (x drive asym : FVal) : FVal :=
  let kPos := drive
  let kNeg := FVal.mul drive asym
  if FVal.ge x (FVal.fin 0.0) then
    FVal.div x (FVal.add (FVal.fin 1.0) (FVal.mul kPos (FVal.abs x)))
  else
    FVal.div x (FVal.add (FVal.fin 1.0) (FVal.mul kNeg (FVal.abs x)))

/-- The cross-modulation part of the loop body (lines 260 to 273) on `float` values: from
the four filter outputs, the previous `crossModA`, `crossModB` and the two inertia-smoothed
cutoffs, the new `crossModA`, `crossModB`, `smoothedFcA`, `smoothedFcB`. -/
def crossModX (crossAmount outA_L outA_R outB_L outB_R crossModA crossModB
    smoothedFcA smoothedFcB : FVal) : FVal × FVal × FVal × FVal :=
  let energyA := FVal.mul (FVal.fin 0.5) (FVal.add (FVal.abs outA_L) (FVal.abs outA_R))
  let energyB := FVal.mul (FVal.fin 0.5) (FVal.add (FVal.abs outB_L) (FVal.abs outB_R))
  let crossModA1 :=
    FVal.add crossModA (FVal.mul (FVal.fin 0.001) (FVal.sub energyA crossModA))
  let crossModB1 :=
    FVal.add crossModB (FVal.mul (FVal.fin 0.001) (FVal.sub energyB crossModB))
  let smoothedFcA1 :=
    FVal.mul smoothedFcA (FVal.add (FVal.fin 1.0) (FVal.mul crossAmount crossModB1))
  let smoothedFcB1 :=
    FVal.mul smoothedFcB (FVal.add (FVal.fin 1.0) (FVal.mul crossAmount crossModA1))
  (crossModA1, crossModB1,
    jlimitX (FVal.fin 20.0) (FVal.fin 18000.0) smoothedFcA1,
    jlimitX (FVal.fin 20.0) (FVal.fin 18000.0) smoothedFcB1)

/-- The output part of the loop body for one channel (lines 286 to 311) on `float` values:
from the two filter outputs of the channel, its clamped weight, the block constants and the
previous damping state, the written sample and the new damping state. -/
def postX (outA outB weight diodeDrive asym body g dampMix damp : FVal) : FVal × FVal :=
  let out0 :=
    FVal.add (FVal.mul outA weight) (FVal.mul outB (FVal.sub (FVal.fin 1.0) weight))
  let out1 := diodeClipX out0 diodeDrive asym
  let grit := FVal.sub (FVal.mul (FVal.mul out1 out1) out1) out1
  let out := FVal.add out1 (FVal.mul (FVal.mul grit body) (FVal.fin 0.02))
  let damp1 := FVal.add damp (FVal.mul g (FVal.sub out damp))
  (FVal.add (FVal.mul out (FVal.sub (FVal.fin 1.0) dampMix)) (FVal.mul damp1 dampMix), damp1)

/-! ## Basic facts about the helpers -/

theorem jlimit_ge (lo hi v : ℚ) (h : lo ≤ hi) : lo ≤ jlimit lo hi v := by
  unfold jlimit
  split_ifs <;> linarith

theorem jlimit_le (lo hi v : ℚ) (h : lo ≤ hi) : jlimit lo hi v ≤ hi := by
  unfold jlimit
  split_ifs <;> linarith

theorem jmax_eq_max (a b : Int) : jmax a b = max a b := by
  unfold jmax
  split_ifs with h
  · exact (max_eq_right (le_of_lt h)).symm
  · exact (max_eq_left (not_lt.mp h)).symm

theorem castInt_of_nonneg (x : ℚ) (h : 0 ≤ x) : castInt x = ⌊x⌋ := by
  simp [castInt, h]

theorem wrap_mem (x : ℚ) (h : 0 ≤ x) :
    0 ≤ x - (castInt x : ℚ) ∧ x - (castInt x : ℚ) < 1 := by
  rw [castInt_of_nonneg x h]
  constructor
  · linarith [Int.floor_le x]
  · linarith [Int.lt_floor_add_one x]

theorem refPrims_expOK : ExpOK refPrims := by
  intro x hx
  simp only [refPrims, if_pos hx]
  have h1 : (0:ℚ) < 1 - x := by linarith
  constructor
  · positivity
  · rw [div_lt_one h1]; linarith

theorem juceNextFloat_range (seed : Int) :
    0 ≤ (juceNextFloat seed).1 ∧ (juceNextFloat seed).1 < 1 := by
  simp only [juceNextFloat]
  constructor
  · apply le_min
    · apply div_nonneg
      · exact_mod_cast Int.ediv_nonneg (Int.emod_nonneg _ (by norm_num)) (by norm_num)
      · norm_num
    · norm_num
  · exact lt_of_le_of_lt (min_le_right _ _) (by norm_num)

theorem refPrims_randOK : RandOK refPrims :=
  fun seed => juceNextFloat_range seed

/-! ## The sample loop: unfolding and invariants -/

theorem sampleLoop_zero (E : Prims) (c : Block) (l r : Nat) (sb : AxisEngine × AudioBuffer) :
    sampleLoop E c l r 0 sb = sb := rfl

theorem sampleLoop_succ (E : Prims) (c : Block) (l r n : Nat) (sb : AxisEngine × AudioBuffer) :
    sampleLoop E c l r (n + 1) sb = loopBody E c l r (sampleLoop E c l r n sb) n := by
  simp [sampleLoop, List.range_succ, List.foldl_append]

theorem sampleLoop_succ_fst (E : Prims) (c : Block) (l r n : Nat)
    (sb : AxisEngine × AudioBuffer) :
    (sampleLoop E c l r (n + 1) sb).1 = (sampleStep E c n (sampleLoop E c l r n sb).1).1 := by
  rw [sampleLoop_succ]
  rfl

/-- A property of the engine state kept by every loop iteration holds after any number
of iterations. -/
theorem sampleLoop_invariant (E : Prims) (c : Block) (l r : Nat) (P : AxisEngine → Prop)
    (hstep : ∀ i s, P s → P (sampleStep E c i s).1) (n : Nat)
    (sb : AxisEngine × AudioBuffer) (h : P sb.1) : P (sampleLoop E c l r n sb).1 := by
  induction n with
  | zero => exact h
  | succ k ih =>
    rw [sampleLoop_succ_fst]
    exact hstep k _ ih

theorem processUpTo_zero (E : Prims) (s : AxisEngine) (b : AudioBuffer) :
    processUpTo E s b 0 = (blockState s, b.clear) := rfl

theorem processUpTo_succ_fst (E : Prims) (s : AxisEngine) (b : AudioBuffer) (n : Nat) :
    (processUpTo E s b (n + 1)).1
      = (sampleStep E (blockConsts E s) n (processUpTo E s b n).1).1 := by
  simp only [processUpTo]
  exact sampleLoop_succ_fst _ _ _ _ _ _

theorem process_eq (E : Prims) (s : AxisEngine) (b : AudioBuffer) :
    process E s b = processUpTo E s b b.numSamples := rfl

/-- Invariant rule for `process`: a property that holds after the block-level section and
that the iterations of this block keep holds at every point of the sample loop. -/
theorem processUpTo_invariant (E : Prims) (s : AxisEngine) (b : AudioBuffer)
    (P : AxisEngine → Prop) (hblock : P (blockState s))
    (hstep : ∀ i t, P t → P (sampleStep E (blockConsts E s) i t).1) (n : Nat) :
    P (processUpTo E s b n).1 := by
  simp only [processUpTo]
  exact sampleLoop_invariant E _ _ _ P hstep n _ hblock

/-- Invariant rule for a sequence of `process` calls. -/
theorem processBlocks_invariant (E : Prims) (P : AxisEngine → Prop)
    (hproc : ∀ s b, P s → P (process E s b).1) (buffers : List AudioBuffer)
    (s : AxisEngine) (h : P s) : P (processBlocks E s buffers) := by
  induction buffers generalizing s with
  | nil => exact h
  | cons b bs ih => exact ih _ (hproc s b h)

/-! ### What an iteration leaves alone -/

theorem sampleStep_sr (E : Prims) (c : Block) (i : Nat) (s : AxisEngine) :
    (sampleStep E c i s).1.sr = s.sr := rfl

theorem sampleStep_baseFreq (E : Prims) (c : Block) (i : Nat) (s : AxisEngine) :
    (sampleStep E c i s).1.baseFreq = s.baseFreq := rfl

theorem sampleStep_rotation (E : Prims) (c : Block) (i : Nat) (s : AxisEngine) :
    (sampleStep E c i s).1.rotation = s.rotation := rfl

theorem sampleStep_body (E : Prims) (c : Block) (i : Nat) (s : AxisEngine) :
    (sampleStep E c i s).1.body = s.body := rfl

theorem sampleStep_load (E : Prims) (c : Block) (i : Nat) (s : AxisEngine) :
    (sampleStep E c i s).1.load = s.load := rfl

theorem sampleStep_mass (E : Prims) (c : Block) (i : Nat) (s : AxisEngine) :
    (sampleStep E c i s).1.mass = s.mass := rfl

theorem sampleStep_wear (E : Prims) (c : Block) (i : Nat) (s : AxisEngine) :
    (sampleStep E c i s).1.wear = s.wear := rfl

theorem sampleStep_rotationSmoothed (E : Prims) (c : Block) (i : Nat) (s : AxisEngine) :
    (sampleStep E c i s).1.rotationSmoothed = s.rotationSmoothed := rfl

theorem sampleStep_paramsInRange (E : Prims) (c : Block) (i : Nat) (s : AxisEngine)
    (h : ParamsInRange s) : ParamsInRange (sampleStep E c i s).1 := h

theorem blockState_paramsInRange (s : AxisEngine) (h : ParamsInRange s) :
    ParamsInRange (blockState s) := h

theorem prepare_paramsInRange (s : AxisEngine) (sampleRate : ℚ) (h : ParamsInRange s) :
    ParamsInRange (prepare s sampleRate) := h

/-- The parameters stay in range at every point of `process`. -/
theorem processUpTo_frame (E : Prims) (s : AxisEngine) (b : AudioBuffer) (n : Nat) :
    ParamsInRange s → ParamsInRange (processUpTo E s b n).1 := by
  intro h
  exact processUpTo_invariant E s b ParamsInRange h (fun i t ht => ht) n

theorem processUpTo_sr (E : Prims) (s : AxisEngine) (b : AudioBuffer) (n : Nat) :
    (processUpTo E s b n).1.sr = s.sr :=
  processUpTo_invariant E s b (fun t => t.sr = s.sr) rfl (fun _ _ ht => ht) n

theorem processUpTo_baseFreq (E : Prims) (s : AxisEngine) (b : AudioBuffer) (n : Nat) :
    (processUpTo E s b n).1.baseFreq = s.baseFreq :=
  processUpTo_invariant E s b (fun t => t.baseFreq = s.baseFreq) rfl (fun _ _ ht => ht) n

/-! ## C1: the setters -/

/-- C1: each of the five setters stores the clamp of its input into `[0, 1]` (0 below 0,
1 above 1, the input otherwise) in its own parameter field, so the stored value lies in
`[0, 1]`, and leaves every other field of the engine state unchanged. -/
theorem setters_clamp_and_frame (s : AxisEngine) (v : ℚ) :
    ((setRotation s v).rotation = (if v < 0 then 0 else if v > 1 then 1 else v)
      ∧ (0 ≤ (setRotation s v).rotation ∧ (setRotation s v).rotation ≤ 1)
      ∧ { setRotation s v with rotation := s.rotation } = s)
    ∧ ((setBody s v).body = (if v < 0 then 0 else if v > 1 then 1 else v)
      ∧ (0 ≤ (setBody s v).body ∧ (setBody s v).body ≤ 1)
      ∧ { setBody s v with body := s.body } = s)
    ∧ ((setLoad s v).load = (if v < 0 then 0 else if v > 1 then 1 else v)
      ∧ (0 ≤ (setLoad s v).load ∧ (setLoad s v).load ≤ 1)
      ∧ { setLoad s v with load := s.load } = s)
    ∧ ((setMass s v).mass = (if v < 0 then 0 else if v > 1 then 1 else v)
      ∧ (0 ≤ (setMass s v).mass ∧ (setMass s v).mass ≤ 1)
      ∧ { setMass s v with mass := s.mass } = s)
    ∧ ((setWear s v).wear = (if v < 0 then 0 else if v > 1 then 1 else v)
      ∧ (0 ≤ (setWear s v).wear ∧ (setWear s v).wear ≤ 1)
      ∧ { setWear s v with wear := s.wear } = s) := by
  have hlo := jlimit_ge 0 1 v (by norm_num)
  have hhi := jlimit_le 0 1 v (by norm_num)
  exact ⟨⟨rfl, ⟨hlo, hhi⟩, rfl⟩, ⟨rfl, ⟨hlo, hhi⟩, rfl⟩, ⟨rfl, ⟨hlo, hhi⟩, rfl⟩,
    ⟨rfl, ⟨hlo, hhi⟩, rfl⟩, ⟨rfl, ⟨hlo, hhi⟩, rfl⟩⟩

/-! ## C2: `prepare` -/

/-- What `prepare` does reset: the phases, the smoothed cutoffs, the damping state and
the drift state take their initial values and the sample rate is stored. -/
theorem prepare_resets (s : AxisEngine) (sampleRate : ℚ) :
    let t := prepare s sampleRate
    t.sr = sampleRate ∧ t.phaseA = 0 ∧ t.phaseB = 0 ∧ t.phaseC = 0 ∧ t.phaseSub = 0
      ∧ t.spectralPhase = 0 ∧ t.smoothedFcA = 400 ∧ t.smoothedFcB = 600
      ∧ t.dampL = 0 ∧ t.dampR = 0 ∧ t.driftA = 0 ∧ t.driftB = 0
      ∧ t.driftTargetA = 0 ∧ t.driftTargetB = 0 :=
  ⟨rfl, rfl, rfl, rfl, rfl, rfl, rfl, rfl, rfl, rfl, rfl, rfl, rfl, rfl⟩

/-- What `prepare` does not touch: `rotationSmoothed`, `crossModA`, `crossModB`, the
generator seed, the base frequency and the five parameters keep their prior values. -/
theorem prepare_keeps (s : AxisEngine) (sampleRate : ℚ) :
    let t := prepare s sampleRate
    t.rotationSmoothed = s.rotationSmoothed ∧ t.crossModA = s.crossModA
      ∧ t.crossModB = s.crossModB ∧ t.random = s.random ∧ t.baseFreq = s.baseFreq
      ∧ t.rotation = s.rotation ∧ t.body = s.body ∧ t.load = s.load ∧ t.mass = s.mass
      ∧ t.wear = s.wear :=
  ⟨rfl, rfl, rfl, rfl, rfl, rfl, rfl, rfl, rfl, rfl⟩

/-- C2 (the code at the failing input): a new engine with rotation set to 1 runs
`process` once on an empty stereo buffer, which moves `rotationSmoothed` to 21/200;
`prepare (48000)` then leaves `rotationSmoothed` at 21/200 instead of its initial
value 0. -/
theorem prepare_leaves_rotationSmoothed :
    (prepare (process refPrims (setRotation (AxisEngine.init 0) 1) ⟨0, [[], []]⟩).1
        48000).rotationSmoothed = 21 / 200
    ∧ (AxisEngine.init 0).rotationSmoothed = 0 := by
  constructor
  · rw [(prepare_keeps _ _).1, process_eq]
    show (processUpTo refPrims _ _ 0).1.rotationSmoothed = _
    rw [processUpTo_zero]
    norm_num [blockState, setResonances, updateRotation, torqueSpeed, jmap, setRotation,
      jlimit, AxisEngine.init]
  · rfl

/-! ## C3: `process` on a buffer without samples -/

/-- C3 (counterexample): on a new engine, `process` on an empty stereo buffer changes the
engine state: `rotationSmoothed` moves from 0 to 63/2000. -/
theorem process_zero_samples_changes_state :
    (process refPrims (AxisEngine.init 0) ⟨0, [[], []]⟩).1 ≠ AxisEngine.init 0 := by
  intro h
  have h2 := congrArg AxisEngine.rotationSmoothed h
  rw [process_eq] at h2
  change (processUpTo refPrims _ _ 0).1.rotationSmoothed = _ at h2
  rw [processUpTo_zero] at h2
  norm_num [blockState, setResonances, updateRotation, torqueSpeed, jmap,
    AxisEngine.init] at h2

/-- C3 (amended): on a buffer with zero samples `process` runs only its block-level
section: `rotationSmoothed` takes one smoothing step toward `rotation`, the four filters
receive their resonance, every other field of the engine state is unchanged, and the
buffer is the cleared buffer. -/
theorem process_zero_samples (E : Prims) (s : AxisEngine) (buffer : AudioBuffer)
    (h : buffer.numSamples = 0) :
    (process E s buffer).1 =
      { s with
        rotationSmoothed :=
          s.rotationSmoothed + jmap s.mass 0.2 0.01 * (s.rotation - s.rotationSmoothed)
        filterA_L := { s.filterA_L with resonance := resonance s * (1 + qSkew s) }
        filterA_R := { s.filterA_R with resonance := resonance s * (1 + qSkew s) }
        filterB_L := { s.filterB_L with resonance := resonance s * (1 - qSkew s) }
        filterB_R := { s.filterB_R with resonance := resonance s * (1 - qSkew s) } }
    ∧ (process E s buffer).2 = buffer.clear := by
  rw [process_eq, h, processUpTo_zero]
  constructor
  · simp only [blockState, setResonances, updateRotation, torqueSpeed,
      SVFilter.setResonance, resonance, qSkew, bodyHigh, bodyMid, bodyLow]
    norm_num
  · rfl

/-- C3 (amended), instance: a new engine and an empty stereo buffer. -/
theorem process_zero_samples_witness :
    (⟨0, [[], []]⟩ : AudioBuffer).numSamples = 0
    ∧ (process refPrims (AxisEngine.init 0) ⟨0, [[], []]⟩).1 =
      { AxisEngine.init 0 with
        rotationSmoothed :=
          (AxisEngine.init 0).rotationSmoothed + jmap (AxisEngine.init 0).mass 0.2 0.01
            * ((AxisEngine.init 0).rotation - (AxisEngine.init 0).rotationSmoothed)
        filterA_L := { (AxisEngine.init 0).filterA_L with
          resonance := resonance (AxisEngine.init 0) * (1 + qSkew (AxisEngine.init 0)) }
        filterA_R := { (AxisEngine.init 0).filterA_R with
          resonance := resonance (AxisEngine.init 0) * (1 + qSkew (AxisEngine.init 0)) }
        filterB_L := { (AxisEngine.init 0).filterB_L with
          resonance := resonance (AxisEngine.init 0) * (1 - qSkew (AxisEngine.init 0)) }
        filterB_R := { (AxisEngine.init 0).filterB_R with
          resonance := resonance (AxisEngine.init 0) * (1 - qSkew (AxisEngine.init 0)) } }
    ∧ (process refPrims (AxisEngine.init 0) ⟨0, [[], []]⟩).2
        = (⟨0, [[], []]⟩ : AudioBuffer).clear :=
  ⟨rfl, process_zero_samples refPrims (AxisEngine.init 0) ⟨0, [[], []]⟩ rfl⟩

/-! ## C7: the drift retarget interval in exact arithmetic -/

/-- C7 (counterexample): at 44100 Hz and wear 0.3 the quotient is 65820.89..., the code
computes 65820 and rounding to nearest gives 65821. -/
theorem driftInterval_not_rounded :
    driftInterval (prepare (setWear (AxisEngine.init 0) 0.3) 44100)
      ≠ max 1 (round ((44100 : ℚ) / (0.1 + 0.3 * 1.9))) := by
  have h1 : driftInterval (prepare (setWear (AxisEngine.init 0) 0.3) 44100) = 65820 := by
    have hq : (prepare (setWear (AxisEngine.init 0) 0.3) 44100).sr
        / driftSpeedHz (prepare (setWear (AxisEngine.init 0) 0.3) 44100)
        = 4410000 / 67 := by
      norm_num [prepare, setWear, jlimit, driftSpeedHz, jmap, AxisEngine.init]
    rw [driftInterval, hq, castInt_of_nonneg _ (by norm_num), jmax_eq_max]
    have : ⌊(4410000 / 67 : ℚ)⌋ = 65820 := by
      rw [Int.floor_eq_iff]; constructor <;> norm_num
    rw [this]; rfl
  have h2 : round ((44100 : ℚ) / (0.1 + 0.3 * 1.9)) = 65821 := by
    rw [round_eq, Int.floor_eq_iff]; constructor <;> norm_num
  rw [h1, h2]; decide

/-- In exact arithmetic: for wear in `[0, 1]` and a positive sample rate the drift
retarget interval of the model is `max (1, floor (sr / driftSpeedHz))` with
`driftSpeedHz = 0.1 + wear * 1.9`; it is at least 1.  (The program rounds `0.1f` and the
operations; the rounded interval is treated further below.) -/
theorem driftInterval_eq (s : AxisEngine) (hw : 0 ≤ s.wear ∧ s.wear ≤ 1) (hsr : 0 < s.sr) :
    driftInterval s = max 1 ⌊s.sr / (0.1 + s.wear * 1.9)⌋ ∧ 1 ≤ driftInterval s := by
  have hsp : driftSpeedHz s = 0.1 + s.wear * 1.9 := by
    simp only [driftSpeedHz, jmap]; norm_num
  have hpos : (0 : ℚ) < 0.1 + s.wear * 1.9 := by
    have := hw.1
    have h5 : (0 : ℚ) ≤ s.wear * 1.9 := mul_nonneg hw.1 (by norm_num)
    have h6 : (0 : ℚ) < 0.1 := by norm_num
    linarith
  have hq : 0 ≤ s.sr / (0.1 + s.wear * 1.9) := le_of_lt (div_pos hsr hpos)
  have heq : driftInterval s = max 1 ⌊s.sr / (0.1 + s.wear * 1.9)⌋ := by
    rw [driftInterval, hsp, castInt_of_nonneg _ hq, jmax_eq_max]
  exact ⟨heq, heq ▸ le_max_left _ _⟩

/-- Instance of `driftInterval_eq`: a new engine (44100 Hz, wear 0.2). -/
theorem driftInterval_eq_witness :
    driftInterval (AxisEngine.init 0)
      = max 1 ⌊(AxisEngine.init 0).sr / (0.1 + (AxisEngine.init 0).wear * 1.9)⌋
    ∧ 1 ≤ driftInterval (AxisEngine.init 0) :=
  driftInterval_eq (AxisEngine.init 0) (by norm_num [AxisEngine.init])
    (by norm_num [AxisEngine.init])

/-! ## C10: the resonance passed to the filters -/

/-- The clamp `jlimit (0.0f, 1.0f, v)` lies in the unit interval. -/
theorem jlimit01_mem (v : ℚ) : 0 ≤ jlimit 0.0 1.0 v ∧ jlimit 0.0 1.0 v ≤ 1 := by
  have e0 : (0 : ℚ) = 0.0 := by norm_num
  have e1 : (1.0 : ℚ) = 1 := by norm_num
  exact ⟨le_trans (le_of_eq e0) (jlimit_ge 0.0 1.0 v (by norm_num)),
    le_trans (jlimit_le 0.0 1.0 v (by norm_num)) (le_of_eq e1)⟩

theorem bodyLow_mem (s : AxisEngine) : 0 ≤ bodyLow s ∧ bodyLow s ≤ 1 :=
  jlimit01_mem _

theorem bodyMid_mem (s : AxisEngine) : 0 ≤ bodyMid s ∧ bodyMid s ≤ 1 :=
  jlimit01_mem _

theorem bodyHigh_mem (s : AxisEngine) : 0 ≤ bodyHigh s ∧ bodyHigh s ≤ 1 :=
  jlimit01_mem _

/-- The crossfaded, load-scaled resonance is non-negative when load is in `[0, 1]`. -/
theorem resonance_nonneg (s : AxisEngine) (hl : 0 ≤ s.load ∧ s.load ≤ 1) :
    0 ≤ resonance s := by
  obtain ⟨l0, l1⟩ := bodyLow_mem s
  obtain ⟨m0, m1⟩ := bodyMid_mem s
  obtain ⟨h0, h1⟩ := bodyHigh_mem s
  simp only [resonance, jmap]
  apply mul_nonneg
  · have t1 : 0 ≤ (0.25 + bodyLow s * (1.0 - 0.25)) * (1.0 - bodyMid s) :=
      mul_nonneg (by nlinarith) (by linarith)
    have t2 : 0 ≤ (1.0 + bodyMid s * (3.5 - 1.0)) * (1.0 - bodyHigh s) :=
      mul_nonneg (by nlinarith) (by linarith)
    have t3 : 0 ≤ (3.5 + bodyHigh s * (6.5 - 3.5)) * bodyHigh s :=
      mul_nonneg (by nlinarith) h0
    linarith
  · nlinarith [hl.1, hl.2]

/-- The filters keep the resonance they were given through every loop iteration. -/
theorem processUpTo_resonance (E : Prims) (s : AxisEngine) (b : AudioBuffer) (n : Nat) :
    let t := (processUpTo E s b n).1
    t.filterA_L.resonance = resonance s * (1.0 + qSkew s)
      ∧ t.filterA_R.resonance = resonance s * (1.0 + qSkew s)
      ∧ t.filterB_L.resonance = resonance s * (1.0 - qSkew s)
      ∧ t.filterB_R.resonance = resonance s * (1.0 - qSkew s) :=
  processUpTo_invariant E s b
    (fun t => t.filterA_L.resonance = resonance s * (1.0 + qSkew s)
      ∧ t.filterA_R.resonance = resonance s * (1.0 + qSkew s)
      ∧ t.filterB_L.resonance = resonance s * (1.0 - qSkew s)
      ∧ t.filterB_R.resonance = resonance s * (1.0 - qSkew s))
    ⟨rfl, rfl, rfl, rfl⟩ (fun _ _ ht => ht) n

/-- C10: for parameters in `[0, 1]`, the resonance values `process` passes to the four
filter stages, `resonance * (1 + qSkew)` for pair A and `resonance * (1 - qSkew)` for
pair B with `resonance = (resLow * (1 - bodyMid) + resMid * (1 - bodyHigh)
+ resHigh * bodyHigh) * map (load, 1.0, 0.65)` and `qSkew = 0.35 * bodyHigh`, are
non-negative; they are the resonance settings of the four filters after the call. -/
theorem resonance_passed_nonneg (E : Prims) (s : AxisEngine) (buffer : AudioBuffer)
    (hp : ParamsInRange s) :
    let res := (jmap (bodyLow s) 0.25 1.0 * (1 - bodyMid s)
        + jmap (bodyMid s) 1.0 3.5 * (1 - bodyHigh s)
        + jmap (bodyHigh s) 3.5 6.5 * bodyHigh s) * jmap s.load 1.0 0.65
    let skew := 0.35 * bodyHigh s
    let t := (process E s buffer).1
    t.filterA_L.resonance = res * (1 + skew) ∧ t.filterA_R.resonance = res * (1 + skew)
      ∧ t.filterB_L.resonance = res * (1 - skew) ∧ t.filterB_R.resonance = res * (1 - skew)
      ∧ 0 ≤ res * (1 + skew) ∧ 0 ≤ res * (1 - skew) := by
  intro res skew t
  have hres : res = resonance s := by
    simp only [res, resonance]; norm_num
  have hskew : skew = qSkew s := by
    simp only [skew, qSkew]; ring
  obtain ⟨h0, h1⟩ := bodyHigh_mem s
  have hr := resonance_nonneg s hp.2.2.1
  obtain ⟨a1, a2, a3, a4⟩ := processUpTo_resonance E s buffer buffer.numSamples
  have e1 : resonance s * (1.0 + qSkew s) = res * (1 + skew) := by
    rw [hres, hskew]; norm_num
  have e2 : resonance s * (1.0 - qSkew s) = res * (1 - skew) := by
    rw [hres, hskew]; norm_num
  refine ⟨a1.trans e1, a2.trans e1, a3.trans e2, a4.trans e2, ?_, ?_⟩
  · rw [hres]; exact mul_nonneg hr (by simp only [skew]; nlinarith)
  · rw [hres]; exact mul_nonneg hr (by simp only [skew]; nlinarith)

/-- C10, instance: a new engine processing one stereo sample. -/
theorem resonance_passed_nonneg_witness :
    ParamsInRange (AxisEngine.init 0)
    ∧ 0 ≤ (process refPrims (AxisEngine.init 0) ⟨1, [[0], [0]]⟩).1.filterA_L.resonance
    ∧ 0 ≤ (process refPrims (AxisEngine.init 0) ⟨1, [[0], [0]]⟩).1.filterB_L.resonance := by
  have hp : ParamsInRange (AxisEngine.init 0) := by
    norm_num [ParamsInRange, AxisEngine.init]
  have h := resonance_passed_nonneg refPrims (AxisEngine.init 0) ⟨1, [[0], [0]]⟩ hp
  exact ⟨hp, h.1 ▸ h.2.2.2.2.1, h.2.2.1 ▸ h.2.2.2.2.2⟩

/-! ## C4: the smoothed cutoffs with finite filter outputs -/

theorem paramsInRange_init (seed : Int) : ParamsInRange (AxisEngine.init seed) := by
  norm_num [ParamsInRange, AxisEngine.init]

theorem sampleStep_driftTargetA (E : Prims) (c : Block) (i : Nat) (s : AxisEngine) :
    (sampleStep E c i s).1.driftTargetA
      = if decide ((i : Int) % c.driftInterval = 0) = true
        then (E.nextFloat s.random).1 * 2.0 - 1.0 else s.driftTargetA := rfl

theorem sampleStep_driftTargetB (E : Prims) (c : Block) (i : Nat) (s : AxisEngine) :
    (sampleStep E c i s).1.driftTargetB
      = if decide ((i : Int) % c.driftInterval = 0) = true
        then (E.nextFloat (E.nextFloat s.random).2).1 * 2.0 - 1.0 else s.driftTargetB := rfl

theorem sampleStep_driftA (E : Prims) (c : Block) (i : Nat) (s : AxisEngine) :
    (sampleStep E c i s).1.driftA
      = s.driftA + 0.0005 * ((sampleStep E c i s).1.driftTargetA - s.driftA) := rfl

theorem sampleStep_driftB (E : Prims) (c : Block) (i : Nat) (s : AxisEngine) :
    (sampleStep E c i s).1.driftB
      = s.driftB + 0.0005 * ((sampleStep E c i s).1.driftTargetB - s.driftB) := rfl

theorem sampleStep_phaseA (E : Prims) (c : Block) (i : Nat) (s : AxisEngine) :
    (sampleStep E c i s).1.phaseA
      = (s.phaseA + s.baseFreq * (1.0 + c.instability * (sampleStep E c i s).1.driftA) / s.sr)
        - (castInt (s.phaseA
            + s.baseFreq * (1.0 + c.instability * (sampleStep E c i s).1.driftA) / s.sr) : ℚ) :=
  rfl

theorem sampleStep_phaseB (E : Prims) (c : Block) (i : Nat) (s : AxisEngine) :
    (sampleStep E c i s).1.phaseB
      = (s.phaseB
          + s.baseFreq * 1.01 * (1.0 - c.instability * (sampleStep E c i s).1.driftB) / s.sr)
        - (castInt (s.phaseB
            + s.baseFreq * 1.01 * (1.0 - c.instability * (sampleStep E c i s).1.driftB) / s.sr)
            : ℚ) :=
  rfl

theorem sampleStep_phaseC (E : Prims) (c : Block) (i : Nat) (s : AxisEngine) :
    (sampleStep E c i s).1.phaseC
      = (s.phaseC + s.baseFreq * 0.5 / s.sr)
        - (castInt (s.phaseC + s.baseFreq * 0.5 / s.sr) : ℚ) := rfl

theorem sampleStep_phaseSub (E : Prims) (c : Block) (i : Nat) (s : AxisEngine) :
    (sampleStep E c i s).1.phaseSub
      = (s.phaseSub + s.baseFreq * 0.5 / s.sr)
        - (castInt (s.phaseSub + s.baseFreq * 0.5 / s.sr) : ℚ) := rfl

/-- A drift target drawn as `nextFloat () * 2 - 1` lies in `[-1, 1]`. -/
theorem target_mem (u : ℚ) (hu : 0 ≤ u ∧ u < 1) : -1 ≤ u * 2.0 - 1.0 ∧ u * 2.0 - 1.0 ≤ 1 := by
  have e2 : (2.0 : ℚ) = 2 := by norm_num
  have e1 : (1.0 : ℚ) = 1 := by norm_num
  rw [e2, e1]
  constructor <;> linarith [hu.1, hu.2]

/-- One smoothing step `d + 0.0005 * (t - d)` stays in `[-1, 1]`. -/
theorem drift_step_mem (d t : ℚ) (hd : -1 ≤ d ∧ d ≤ 1) (ht : -1 ≤ t ∧ t ≤ 1) :
    -1 ≤ d + 0.0005 * (t - d) ∧ d + 0.0005 * (t - d) ≤ 1 := by
  have e : (0.0005 : ℚ) = 1 / 2000 := by norm_num
  rw [e]
  constructor <;> linarith [hd.1, hd.2, ht.1, ht.2]

/-- The local `instability` lies in `[0, 0.003]` for wear in `[0, 1]`. -/
theorem instability_mem (s : AxisEngine) (hw : 0 ≤ s.wear ∧ s.wear ≤ 1) :
    0 ≤ instability s ∧ instability s ≤ 3 / 1000 := by
  simp only [instability, jmap]
  norm_num
  constructor <;> nlinarith [hw.1, hw.2]

/-- The frequency `55 * (1 + instability * drift)` is positive, with either sign of the
drift term. -/
theorem freq_pos (k d : ℚ) (hk : 0 ≤ k ∧ k ≤ 3 / 1000) (hd : -1 ≤ d ∧ d ≤ 1) :
    0 < (55 : ℚ) * (1.0 + k * d) ∧ 0 < (55 : ℚ) * 1.01 * (1.0 - k * d) := by
  have e1 : (1.0 : ℚ) = 1 := by norm_num
  have e2 : (1.01 : ℚ) = 101 / 100 := by norm_num
  rw [e1, e2]
  have h1 : -(3 / 1000 : ℚ) ≤ k * d := by nlinarith [hk.1, hk.2, hd.1, hd.2]
  have h2 : k * d ≤ (3 / 1000 : ℚ) := by nlinarith [hk.1, hk.2, hd.1, hd.2]
  constructor
  · have : (0 : ℚ) < 1 + k * d := by linarith
    positivity
  · have : (0 : ℚ) < 1 - k * d := by linarith
    positivity

/-- A phase in `[0, 1)` advanced by a non-negative increment and wrapped by subtracting
its integer part lies in `[0, 1)`. -/
theorem advance_wrap_mem (p f sr : ℚ) (hp : 0 ≤ p) (hf : 0 ≤ f) (hsr : 0 < sr) :
    0 ≤ (p + f / sr) - (castInt (p + f / sr) : ℚ)
      ∧ (p + f / sr) - (castInt (p + f / sr) : ℚ) < 1 :=
  wrap_mem _ (add_nonneg hp (div_nonneg hf (le_of_lt hsr)))

/-- One loop iteration keeps the oscillator invariant. -/
theorem sampleStep_oscInv (E : Prims) (hE : RandOK E) (c : Block)
    (hc : 0 ≤ c.instability ∧ c.instability ≤ 3 / 1000) (i : Nat) (s : AxisEngine)
    (h : OscInv s) : OscInv (sampleStep E c i s).1 := by
  obtain ⟨hp, hsr, hb, ⟨hTA, hTB⟩, ⟨hDA, hDB⟩, hA, hB, hC, hS⟩ := h
  have hTA2 : -1 ≤ (sampleStep E c i s).1.driftTargetA
      ∧ (sampleStep E c i s).1.driftTargetA ≤ 1 := by
    rw [sampleStep_driftTargetA]
    split_ifs
    · exact target_mem _ (hE _)
    · exact hTA
  have hTB2 : -1 ≤ (sampleStep E c i s).1.driftTargetB
      ∧ (sampleStep E c i s).1.driftTargetB ≤ 1 := by
    rw [sampleStep_driftTargetB]
    split_ifs
    · exact target_mem _ (hE _)
    · exact hTB
  have hDA2 : -1 ≤ (sampleStep E c i s).1.driftA ∧ (sampleStep E c i s).1.driftA ≤ 1 := by
    rw [sampleStep_driftA]
    exact drift_step_mem _ _ hDA hTA2
  have hDB2 : -1 ≤ (sampleStep E c i s).1.driftB ∧ (sampleStep E c i s).1.driftB ≤ 1 := by
    rw [sampleStep_driftB]
    exact drift_step_mem _ _ hDB hTB2
  have hfA := (freq_pos c.instability _ hc hDA2).1
  have hfB := (freq_pos c.instability _ hc hDB2).2
  have hfC : (0 : ℚ) ≤ 55 * 0.5 := by norm_num
  refine ⟨hp, hsr, hb, ⟨hTA2, hTB2⟩, ⟨hDA2, hDB2⟩, ?_, ?_, ?_, ?_⟩
  · rw [sampleStep_phaseA, hb]
    exact advance_wrap_mem _ _ _ hA.1 (le_of_lt hfA) hsr
  · rw [sampleStep_phaseB, hb]
    exact advance_wrap_mem _ _ _ hB.1 (le_of_lt hfB) hsr
  · rw [sampleStep_phaseC, hb]
    exact advance_wrap_mem _ _ _ hC.1 hfC hsr
  · rw [sampleStep_phaseSub, hb]
    exact advance_wrap_mem _ _ _ hS.1 hfC hsr

theorem prepare_oscInv (s : AxisEngine) (sampleRate : ℚ) (hp : ParamsInRange s)
    (hb : s.baseFreq = 55) (hsr : 0 < sampleRate) : OscInv (prepare s sampleRate) := by
  have z : (-1 : ℚ) ≤ 0 ∧ (0 : ℚ) ≤ 1 := by constructor <;> norm_num
  have w : (0 : ℚ) ≤ 0 ∧ (0 : ℚ) < 1 := by constructor <;> norm_num
  exact ⟨hp, hsr, hb, ⟨z, z⟩, ⟨z, z⟩, w, w, w, w⟩

theorem processUpTo_oscInv (E : Prims) (hE : RandOK E) (s : AxisEngine) (b : AudioBuffer)
    (n : Nat) (h : OscInv s) : OscInv (processUpTo E s b n).1 :=
  processUpTo_invariant E s b OscInv h
    (fun i t ht => sampleStep_oscInv E hE _ (instability_mem s h.1.2.2.2.2) i t ht) n

theorem processBlocks_oscInv (E : Prims) (hE : RandOK E) (s : AxisEngine)
    (buffers : List AudioBuffer) (h : OscInv s) : OscInv (processBlocks E s buffers) :=
  processBlocks_invariant E OscInv (fun t b ht => processUpTo_oscInv E hE t b _ ht)
    buffers s h

/-- C6: for parameters in `[0, 1]` and a positive sample rate, starting from a prepared
engine and after any sequence of processed blocks, at every point of the sample loop of
`process` (after `n` iterations of the block being processed) the oscillator phases
`phaseA`, `phaseB`, `phaseC` and `phaseSub` lie in `[0, 1)`; the drift values lie in
`[-1, 1]`, `instability` is at most 0.003, and the frequencies `freqA` and `freqB` that
advance the phases are positive. -/
theorem phases_in_unit_interval (E : Prims) (hE : RandOK E) (s0 : AxisEngine)
    (sampleRate : ℚ) (hp : ParamsInRange s0) (hb : s0.baseFreq = 55) (hsr : 0 < sampleRate)
    (buffers : List AudioBuffer) (b : AudioBuffer) (n : Nat) :
    let s := processBlocks E (prepare s0 sampleRate) buffers
    let t := (processUpTo E s b n).1
    (0 ≤ t.phaseA ∧ t.phaseA < 1) ∧ (0 ≤ t.phaseB ∧ t.phaseB < 1)
      ∧ (0 ≤ t.phaseC ∧ t.phaseC < 1) ∧ (0 ≤ t.phaseSub ∧ t.phaseSub < 1)
      ∧ (-1 ≤ t.driftA ∧ t.driftA ≤ 1) ∧ (-1 ≤ t.driftB ∧ t.driftB ≤ 1)
      ∧ (blockConsts E s).instability ≤ 3 / 1000
      ∧ 0 < t.baseFreq * (1 + (blockConsts E s).instability * t.driftA)
      ∧ 0 < t.baseFreq * 1.01 * (1 - (blockConsts E s).instability * t.driftB) := by
  intro s t
  have hs : OscInv s :=
    processBlocks_oscInv E hE _ buffers (prepare_oscInv s0 sampleRate hp hb hsr)
  have ht : OscInv t := processUpTo_oscInv E hE s b n hs
  have hi := instability_mem s hs.1.2.2.2.2
  obtain ⟨_, _, hbt, _, ⟨hDA, hDB⟩, hA, hB, hC, hS⟩ := ht
  have hf := freq_pos (instability s) t.driftA hi hDA
  have hg := freq_pos (instability s) t.driftB hi hDB
  have e1 : (1.0 : ℚ) = 1 := by norm_num
  rw [e1] at hf hg
  refine ⟨hA, hB, hC, hS, hDA, hDB, hi.2, ?_, ?_⟩
  · rw [hbt]; exact hf.1
  · rw [hbt]; exact hg.2

/-- C6, instance: a new engine prepared at 48000 Hz, first iteration of its second block. -/
theorem phases_in_unit_interval_witness :
    RandOK refPrims ∧ ParamsInRange (AxisEngine.init 0) ∧ (AxisEngine.init 0).baseFreq = 55
    ∧ (0 : ℚ) < 48000
    ∧ (0 ≤ (processUpTo refPrims (processBlocks refPrims (prepare (AxisEngine.init 0) 48000)
          [⟨2, [[0, 0], [0, 0]]⟩]) ⟨2, [[0, 0], [0, 0]]⟩ 1).1.phaseA
      ∧ (processUpTo refPrims (processBlocks refPrims (prepare (AxisEngine.init 0) 48000)
          [⟨2, [[0, 0], [0, 0]]⟩]) ⟨2, [[0, 0], [0, 0]]⟩ 1).1.phaseA < 1) :=
  ⟨refPrims_randOK, paramsInRange_init 0, rfl, by norm_num,
    (phases_in_unit_interval refPrims refPrims_randOK (AxisEngine.init 0) 48000
      (paramsInRange_init 0) rfl (by norm_num) [⟨2, [[0, 0], [0, 0]]⟩]
      ⟨2, [[0, 0], [0, 0]]⟩ 1).1⟩

/-! ## C9: the output amplitude with finite filter outputs -/

/-- The diode clip bounds its output by 2 in magnitude when `drive ≥ 1/2` and
`asym ≥ 1`. -/
theorem diodeClip_mem (x drive asym : ℚ) (hd : 1 / 2 ≤ drive) (ha : 1 ≤ asym) :
    -2 ≤ diodeClip x drive asym ∧ diodeClip x drive asym ≤ 2 := by
  simp only [diodeClip]
  split_ifs with hx
  · have hx0 : 0 ≤ x := hx
    rw [abs_of_nonneg hx0]
    have hden : 0 < 1 + drive * x := by nlinarith
    constructor
    · have : 0 ≤ x / (1 + drive * x) := div_nonneg hx0 (le_of_lt hden)
      linarith
    · rw [div_le_iff₀ hden]
      nlinarith
  · have hx0 : x < 0 := not_le.mp hx
    rw [abs_of_neg hx0]
    have hk : 1 / 2 ≤ drive * asym := by nlinarith
    have hden : 0 < 1 + drive * asym * -x := by nlinarith
    constructor
    · rw [le_div_iff₀ hden]
      nlinarith
    · have : x / (1 + drive * asym * -x) ≤ 0 :=
        div_nonpos_of_nonpos_of_nonneg (le_of_lt hx0) (le_of_lt hden)
      linarith

/-- The grit stage `y + (y * y * y - y) * body * 0.02` maps `[-2, 2]` into
`[-53/25, 53/25]` for body in `[0, 1]`. -/
theorem grit_mem (y b : ℚ) (hy : -2 ≤ y ∧ y ≤ 2) (hb : 0 ≤ b ∧ b ≤ 1) :
    -(53 / 25) ≤ y + (y * y * y - y) * b * 0.02 ∧ y + (y * y * y - y) * b * 0.02 ≤ 53 / 25 := by
  have e : (0.02 : ℚ) = 1 / 50 := by norm_num
  rw [e]
  obtain ⟨y0, y1⟩ := hy
  obtain ⟨b0, b1⟩ := hb
  have c1 : y * y * y - y ≤ 6 := by
    nlinarith [mul_nonneg (sub_nonneg.mpr y1) (add_nonneg (sq_nonneg (y + 1)) (by norm_num : (0:ℚ) ≤ 2))]
  have c2 : -6 ≤ y * y * y - y := by
    nlinarith [mul_nonneg (by linarith : (0:ℚ) ≤ y + 2) (add_nonneg (sq_nonneg (y - 1)) (by norm_num : (0:ℚ) ≤ 2))]
  have d1 : (y * y * y - y) * b ≤ 6 := by
    by_cases hpos : 0 ≤ y * y * y - y
    · nlinarith
    · nlinarith
  have d2 : -6 ≤ (y * y * y - y) * b := by
    by_cases hpos : 0 ≤ y * y * y - y
    · nlinarith
    · nlinarith
  constructor <;> linarith

/-- The damping coefficient `g = 1 - exp (-2π dampCut / sr)` lies strictly between 0
and 1. -/
theorem dampCoeff_mem (E : Prims) (hE : ExpOK E) (s : AxisEngine)
    (hm : 0 ≤ s.mass ∧ s.mass ≤ 1) (hsr : 0 < s.sr) :
    0 < dampCoeff E s ∧ dampCoeff E s < 1 := by
  have hcut : 0 < jmap s.mass 10000.0 1200.0 := by
    simp only [jmap]
    norm_num
    nlinarith [hm.1, hm.2]
  have harg : -twoPi * jmap s.mass 10000.0 1200.0 / s.sr < 0 := by
    apply div_neg_of_neg_of_pos _ hsr
    have : 0 < twoPi := by norm_num [twoPi]
    nlinarith
  have h := hE _ harg
  simp only [dampCoeff]
  have e1 : (1.0 : ℚ) = 1 := by norm_num
  rw [e1]
  constructor <;> linarith [h.1, h.2]

/-- The damping mix lies in `[0, 1]` for mass in `[0, 1]`. -/
theorem dampMix_mem (s : AxisEngine) (hm : 0 ≤ s.mass ∧ s.mass ≤ 1) :
    0 ≤ dampMix s ∧ dampMix s ≤ 1 := by
  simp only [dampMix, jmap]
  norm_num
  constructor <;> nlinarith [hm.1, hm.2]

/-- One damping step `d + g * (y - d)` stays in the interval of `d` and `y`. -/
theorem damp_step_mem (g d y B : ℚ) (hg : 0 ≤ g ∧ g ≤ 1) (hd : -B ≤ d ∧ d ≤ B)
    (hy : -B ≤ y ∧ y ≤ B) : -B ≤ d + g * (y - d) ∧ d + g * (y - d) ≤ B := by
  obtain ⟨g0, g1⟩ := hg
  have g2 : 0 ≤ 1 - g := by linarith
  constructor
  · nlinarith [mul_nonneg g0 (sub_nonneg.mpr hy.1), mul_nonneg g2 (sub_nonneg.mpr hd.1)]
  · nlinarith [mul_nonneg g0 (sub_nonneg.mpr hy.2), mul_nonneg g2 (sub_nonneg.mpr hd.2)]

/-- The blend `y * (1 - m) + d * m` stays in the interval of `y` and `d`. -/
theorem blend_mem (m d y B : ℚ) (hm : 0 ≤ m ∧ m ≤ 1) (hd : -B ≤ d ∧ d ≤ B)
    (hy : -B ≤ y ∧ y ≤ B) :
    -B ≤ y * (1.0 - m) + d * m ∧ y * (1.0 - m) + d * m ≤ B := by
  have e1 : (1.0 : ℚ) = 1 := by norm_num
  rw [e1]
  obtain ⟨m0, m1⟩ := hm
  have m2 : 0 ≤ 1 - m := by linarith
  constructor
  · nlinarith [mul_nonneg m0 (sub_nonneg.mpr hd.1), mul_nonneg m2 (sub_nonneg.mpr hy.1)]
  · nlinarith [mul_nonneg m0 (sub_nonneg.mpr hd.2), mul_nonneg m2 (sub_nonneg.mpr hy.2)]

/-- Conditions on the block constants that the output bound uses. -/
theorem blockConsts_damp (E : Prims) (hE : ExpOK E) (s : AxisEngine) (hp : ParamsInRange s)
    (hsr : 0 < s.sr) :
    (0 ≤ (blockConsts E s).g ∧ (blockConsts E s).g ≤ 1)
      ∧ (0 ≤ (blockConsts E s).dampMix ∧ (blockConsts E s).dampMix ≤ 1)
      ∧ (0 ≤ (blockConsts E s).bodyHigh ∧ (blockConsts E s).bodyHigh ≤ 1) := by
  have hg := dampCoeff_mem E hE s hp.2.2.2.1 hsr
  exact ⟨⟨le_of_lt hg.1, le_of_lt hg.2⟩, dampMix_mem s hp.2.2.2.1, bodyHigh_mem s⟩

/-- The post-processing chain of one iteration: for the two crossfaded filter outputs
`xL`, `xR` of the iteration, the damping states and the written samples are the diode clip,
the grit stage, the damping step and the blend applied to them. -/
theorem sampleStep_out (E : Prims) (c : Block) (i : Nat) (s : AxisEngine) :
    ∃ xL xR : ℚ,
      (sampleStep E c i s).1.dampL
          = s.dampL + c.g *
            ((diodeClip xL (jmap s.wear 0.5 6.0) (jmap c.bodyHigh 1.0 2.2)
              + (diodeClip xL (jmap s.wear 0.5 6.0) (jmap c.bodyHigh 1.0 2.2)
                  * diodeClip xL (jmap s.wear 0.5 6.0) (jmap c.bodyHigh 1.0 2.2)
                  * diodeClip xL (jmap s.wear 0.5 6.0) (jmap c.bodyHigh 1.0 2.2)
                - diodeClip xL (jmap s.wear 0.5 6.0) (jmap c.bodyHigh 1.0 2.2))
                * s.body * 0.02) - s.dampL)
      ∧ (sampleStep E c i s).2.1
          = (diodeClip xL (jmap s.wear 0.5 6.0) (jmap c.bodyHigh 1.0 2.2)
              + (diodeClip xL (jmap s.wear 0.5 6.0) (jmap c.bodyHigh 1.0 2.2)
                  * diodeClip xL (jmap s.wear 0.5 6.0) (jmap c.bodyHigh 1.0 2.2)
                  * diodeClip xL (jmap s.wear 0.5 6.0) (jmap c.bodyHigh 1.0 2.2)
                - diodeClip xL (jmap s.wear 0.5 6.0) (jmap c.bodyHigh 1.0 2.2))
                * s.body * 0.02) * (1.0 - c.dampMix)
            + (sampleStep E c i s).1.dampL * c.dampMix
      ∧ (sampleStep E c i s).1.dampR
          = s.dampR + c.g *
            ((diodeClip xR (jmap s.wear 0.5 6.0) (jmap c.bodyHigh 1.0 2.2)
              + (diodeClip xR (jmap s.wear 0.5 6.0) (jmap c.bodyHigh 1.0 2.2)
                  * diodeClip xR (jmap s.wear 0.5 6.0) (jmap c.bodyHigh 1.0 2.2)
                  * diodeClip xR (jmap s.wear 0.5 6.0) (jmap c.bodyHigh 1.0 2.2)
                - diodeClip xR (jmap s.wear 0.5 6.0) (jmap c.bodyHigh 1.0 2.2))
                * s.body * 0.02) - s.dampR)
      ∧ (sampleStep E c i s).2.2
          = (diodeClip xR (jmap s.wear 0.5 6.0) (jmap c.bodyHigh 1.0 2.2)
              + (diodeClip xR (jmap s.wear 0.5 6.0) (jmap c.bodyHigh 1.0 2.2)
                  * diodeClip xR (jmap s.wear 0.5 6.0) (jmap c.bodyHigh 1.0 2.2)
                  * diodeClip xR (jmap s.wear 0.5 6.0) (jmap c.bodyHigh 1.0 2.2)
                - diodeClip xR (jmap s.wear 0.5 6.0) (jmap c.bodyHigh 1.0 2.2))
                * s.body * 0.02) * (1.0 - c.dampMix)
            + (sampleStep E c i s).1.dampR * c.dampMix :=
  ⟨_, _, rfl, rfl, rfl, rfl⟩

/-- The clipped and gritted sample lies in `[-53/25, 53/25]`. -/
theorem clip_grit_mem (x wear bodyHigh body : ℚ) (hw : 0 ≤ wear) (hh : 0 ≤ bodyHigh)
    (hb : 0 ≤ body ∧ body ≤ 1) :
    -(53 / 25) ≤ diodeClip x (jmap wear 0.5 6.0) (jmap bodyHigh 1.0 2.2)
        + (diodeClip x (jmap wear 0.5 6.0) (jmap bodyHigh 1.0 2.2)
            * diodeClip x (jmap wear 0.5 6.0) (jmap bodyHigh 1.0 2.2)
            * diodeClip x (jmap wear 0.5 6.0) (jmap bodyHigh 1.0 2.2)
          - diodeClip x (jmap wear 0.5 6.0) (jmap bodyHigh 1.0 2.2)) * body * 0.02
    ∧ diodeClip x (jmap wear 0.5 6.0) (jmap bodyHigh 1.0 2.2)
        + (diodeClip x (jmap wear 0.5 6.0) (jmap bodyHigh 1.0 2.2)
            * diodeClip x (jmap wear 0.5 6.0) (jmap bodyHigh 1.0 2.2)
            * diodeClip x (jmap wear 0.5 6.0) (jmap bodyHigh 1.0 2.2)
          - diodeClip x (jmap wear 0.5 6.0) (jmap bodyHigh 1.0 2.2)) * body * 0.02 ≤ 53 / 25 := by
  have hd : 1 / 2 ≤ jmap wear 0.5 6.0 := by
    simp only [jmap]; norm_num; nlinarith
  have ha : 1 ≤ jmap bodyHigh 1.0 2.2 := by
    simp only [jmap]; norm_num; nlinarith
  exact grit_mem _ _ (diodeClip_mem x _ _ hd ha) hb

/-- One loop iteration keeps the damping invariant and writes two samples within
`[-53/25, 53/25]`. -/
theorem sampleStep_dampInv (E : Prims) (c : Block) (hg : 0 ≤ c.g ∧ c.g ≤ 1)
    (hm : 0 ≤ c.dampMix ∧ c.dampMix ≤ 1) (hh : 0 ≤ c.bodyHigh) (i : Nat) (s : AxisEngine)
    (h : DampInv s) :
    DampInv (sampleStep E c i s).1
      ∧ (-(53 / 25) ≤ (sampleStep E c i s).2.1 ∧ (sampleStep E c i s).2.1 ≤ 53 / 25)
      ∧ (-(53 / 25) ≤ (sampleStep E c i s).2.2 ∧ (sampleStep E c i s).2.2 ≤ 53 / 25) := by
  obtain ⟨hp, hsr, hL, hR⟩ := h
  obtain ⟨xL, xR, e1, e2, e3, e4⟩ := sampleStep_out E c i s
  have oL := clip_grit_mem xL s.wear c.bodyHigh s.body hp.2.2.2.2.1 hh hp.2.1
  have oR := clip_grit_mem xR s.wear c.bodyHigh s.body hp.2.2.2.2.1 hh hp.2.1
  have dL := damp_step_mem c.g s.dampL _ (53 / 25) hg hL oL
  have dR := damp_step_mem c.g s.dampR _ (53 / 25) hg hR oR
  rw [← e1] at dL
  rw [← e3] at dR
  have wL := blend_mem c.dampMix _ _ (53 / 25) hm dL oL
  have wR := blend_mem c.dampMix _ _ (53 / 25) hm dR oR
  rw [← e2] at wL
  rw [← e4] at wR
  exact ⟨⟨hp, hsr, dL, dR⟩, wL, wR⟩

theorem prepare_dampInv (s : AxisEngine) (sampleRate : ℚ) (hp : ParamsInRange s)
    (hsr : 0 < sampleRate) : DampInv (prepare s sampleRate) := by
  have z : -(53 / 25 : ℚ) ≤ 0 ∧ (0 : ℚ) ≤ 53 / 25 := by constructor <;> norm_num
  exact ⟨hp, hsr, z, z⟩

theorem processUpTo_dampInv (E : Prims) (hE : ExpOK E) (s : AxisEngine) (b : AudioBuffer)
    (n : Nat) (h : DampInv s) : DampInv (processUpTo E s b n).1 := by
  obtain ⟨hg, hm, hh⟩ := blockConsts_damp E hE s h.1 h.2.1
  exact processUpTo_invariant E s b DampInv h
    (fun i t ht => (sampleStep_dampInv E _ hg hm hh.1 i t ht).1) n

theorem processBlocks_dampInv (E : Prims) (hE : ExpOK E) (s : AxisEngine)
    (buffers : List AudioBuffer) (h : DampInv s) : DampInv (processBlocks E s buffers) :=
  processBlocks_invariant E DampInv (fun t b ht => processUpTo_dampInv E hE t b _ ht)
    buffers s h

/-! ### The buffer -/

theorem clear_bounded (b : AudioBuffer) : BufferBounded b.clear := by
  intro ch hch x hx
  simp only [AudioBuffer.clear, List.mem_map] at hch
  obtain ⟨_, _, rfl⟩ := hch
  rw [List.eq_of_mem_replicate hx]
  constructor <;> norm_num

theorem write_bounded (b : AudioBuffer) (ch i : Nat) (v : ℚ) (hb : BufferBounded b)
    (hv : -4 ≤ v ∧ v ≤ 4) : BufferBounded (b.write ch i v) := by
  intro l hl x hx
  simp only [AudioBuffer.write] at hl
  rcases List.mem_or_eq_of_mem_set hl with hl | rfl
  · exact hb l hl x hx
  · rcases List.mem_or_eq_of_mem_set hx with hx | rfl
    · by_cases hlen : ch < b.channels.length
      · rw [List.getD_eq_getElem _ _ hlen] at hx
        exact hb _ (List.getElem_mem hlen) x hx
      · rw [List.getD_eq_default _ _ (not_lt.mp hlen)] at hx
        exact absurd hx (List.not_mem_nil x)
    · exact hv

/-- A property of state and buffer kept by every loop iteration holds after any number of
iterations. -/
theorem sampleLoop_invariant_pair (E : Prims) (c : Block) (l r : Nat)
    (P : AxisEngine × AudioBuffer → Prop)
    (hstep : ∀ i sb, P sb → P (loopBody E c l r sb i)) (n : Nat)
    (sb : AxisEngine × AudioBuffer) (h : P sb) : P (sampleLoop E c l r n sb) := by
  induction n with
  | zero => exact h
  | succ k ih =>
    rw [sampleLoop_succ]
    exact hstep k _ ih

theorem processUpTo_bufferBounded (E : Prims) (hE : ExpOK E) (s : AxisEngine)
    (b : AudioBuffer) (n : Nat) (h : DampInv s) :
    BufferBounded (processUpTo E s b n).2 := by
  obtain ⟨hg, hm, hh⟩ := blockConsts_damp E hE s h.1 h.2.1
  have key := sampleLoop_invariant_pair E (blockConsts E s) 0
    (if b.clear.getNumChannels > 1 then 1 else 0)
    (fun sb => DampInv sb.1 ∧ BufferBounded sb.2)
    (fun i sb hsb => by
      obtain ⟨h1, h2, h3⟩ := sampleStep_dampInv E _ hg hm hh.1 i sb.1 hsb.1
      refine ⟨h1, ?_⟩
      apply write_bounded
      · apply write_bounded _ _ _ _ hsb.2
        constructor <;> linarith [h2.1, h2.2]
      · constructor <;> linarith [h3.1, h3.2])
    n (blockState s, b.clear) ⟨h, clear_bounded b⟩
  exact key.2

/-- C9 (amended): for parameters in `[0, 1]` and a positive sample rate, starting from a
prepared engine and after any sequence of processed blocks, whatever finite values the
filter stages return, the two samples that iteration `n` of `process` writes to `left[n]`
and `right[n]` lie in `[-4, 4]` (indeed in `[-2.12, 2.12]`), and every sample of every
channel of the buffer after `process` lies in `[-4, 4]`. -/
theorem output_bounded (E : Prims) (hE : ExpOK E) (s0 : AxisEngine) (sampleRate : ℚ)
    (hp : ParamsInRange s0) (hsr : 0 < sampleRate) (buffers : List AudioBuffer)
    (b : AudioBuffer) :
    let s := processBlocks E (prepare s0 sampleRate) buffers
    (∀ n : Nat,
        (-4 ≤ (sampleStep E (blockConsts E s) n (processUpTo E s b n).1).2.1
          ∧ (sampleStep E (blockConsts E s) n (processUpTo E s b n).1).2.1 ≤ 4)
        ∧ (-4 ≤ (sampleStep E (blockConsts E s) n (processUpTo E s b n).1).2.2
          ∧ (sampleStep E (blockConsts E s) n (processUpTo E s b n).1).2.2 ≤ 4)
        ∧ (-(53 / 25) ≤ (sampleStep E (blockConsts E s) n (processUpTo E s b n).1).2.1
          ∧ (sampleStep E (blockConsts E s) n (processUpTo E s b n).1).2.1 ≤ 53 / 25)
        ∧ (-(53 / 25) ≤ (sampleStep E (blockConsts E s) n (processUpTo E s b n).1).2.2
          ∧ (sampleStep E (blockConsts E s) n (processUpTo E s b n).1).2.2 ≤ 53 / 25))
      ∧ ∀ ch ∈ (process E s b).2.channels, ∀ x ∈ ch, -4 ≤ x ∧ x ≤ 4 := by
  intro s
  have hs : DampInv s :=
    processBlocks_dampInv E hE _ buffers (prepare_dampInv s0 sampleRate hp hsr)
  obtain ⟨hg, hm, hh⟩ := blockConsts_damp E hE s hs.1 hs.2.1
  constructor
  · intro n
    have ht := processUpTo_dampInv E hE s b n hs
    obtain ⟨_, h2, h3⟩ := sampleStep_dampInv E _ hg hm hh.1 n _ ht
    refine ⟨?_, ?_, h2, h3⟩
    · constructor <;> linarith [h2.1, h2.2]
    · constructor <;> linarith [h3.1, h3.2]
  · exact processUpTo_bufferBounded E hE s b _ hs

/-- C9 (amended), instance: a new engine prepared at 48000 Hz, its second block, on a buffer that
held samples of value 5. -/
theorem output_bounded_witness :
    ExpOK refPrims ∧ ParamsInRange (AxisEngine.init 0) ∧ (0 : ℚ) < 48000
    ∧ ∀ ch ∈ (process refPrims (processBlocks refPrims (prepare (AxisEngine.init 0) 48000)
          [⟨2, [[0, 0], [0, 0]]⟩]) ⟨2, [[5, 5], [5, 5]]⟩).2.channels,
        ∀ x ∈ ch, -4 ≤ x ∧ x ≤ 4 :=
  ⟨refPrims_expOK, paramsInRange_init 0, by norm_num,
    (output_bounded refPrims refPrims_expOK (AxisEngine.init 0) 48000 (paramsInRange_init 0)
      (by norm_num) [⟨2, [[0, 0], [0, 0]]⟩] ⟨2, [[5, 5], [5, 5]]⟩).2⟩

/-! ## C5: the spectral rotation phase -/

theorem sampleStep_spectralPhase (E : Prims) (c : Block) (i : Nat) (s : AxisEngine) :
    (sampleStep E c i s).1.spectralPhase
      = if s.spectralPhase + c.rotationRate / s.sr > 1.0
        then s.spectralPhase + c.rotationRate / s.sr - 1.0
        else s.spectralPhase + c.rotationRate / s.sr := rfl

/-- While the accumulated phase does not exceed 1 the conditional subtraction never fires:
after `n` iterations the phase has advanced by `n` increments. -/
theorem sampleLoop_spectralPhase (E : Prims) (c : Block) (l r : Nat) (d : ℚ) (hd : 0 ≤ d)
    (n : Nat) (sb : AxisEngine × AudioBuffer) (hinc : c.rotationRate / sb.1.sr = d)
    (hle : sb.1.spectralPhase + n * d ≤ 1) :
    (sampleLoop E c l r n sb).1.spectralPhase = sb.1.spectralPhase + n * d
      ∧ (sampleLoop E c l r n sb).1.sr = sb.1.sr := by
  induction n with
  | zero => simp [sampleLoop_zero]
  | succ k ih =>
    have hk : sb.1.spectralPhase + (k : ℚ) * d ≤ 1 := by
      push_cast at hle
      nlinarith
    obtain ⟨ih1, ih2⟩ := ih hk
    rw [sampleLoop_succ_fst, sampleStep_spectralPhase, sampleStep_sr, ih1, ih2, hinc]
    have e1 : (1.0 : ℚ) = 1 := by norm_num
    rw [e1]
    push_cast at hle ⊢
    have hnot : ¬ (sb.1.spectralPhase + (k : ℚ) * d + d > 1) := by
      rw [not_lt]; linarith
    rw [if_neg hnot]
    exact ⟨by ring, rfl⟩

/-- With rotation 0 and mass 0 at 16000 Hz the phase increment is 1/32000000: a block of
`n` samples advances `spectralPhase` by `n/32000000` as long as the result does not
exceed 1. -/
theorem process_slowRotation (E : Prims) (s : AxisEngine) (b : AudioBuffer)
    (h : SlowRotation s) (hle : s.spectralPhase + b.numSamples / 32000000 ≤ 1) :
    SlowRotation (process E s b).1
      ∧ (process E s b).1.spectralPhase = s.spectralPhase + b.numSamples / 32000000 := by
  obtain ⟨h1, h2, h3, h4⟩ := h
  have hrate : (blockConsts E s).rotationRate / (blockState s).sr = 1 / 32000000 := by
    show rotationRate (updateRotation s) / s.sr = _
    simp only [rotationRate, updateRotation, jmap, torqueSpeed, h1, h2, h3, h4]
    norm_num
  have key := sampleLoop_spectralPhase E (blockConsts E s) 0
    (if b.clear.getNumChannels > 1 then 1 else 0) (1 / 32000000) (by norm_num)
    b.numSamples (blockState s, b.clear) hrate
    (by
      show s.spectralPhase + (b.numSamples : ℚ) * (1 / 32000000) ≤ 1
      linarith)
  refine ⟨⟨?_, ?_, ?_, ?_⟩, ?_⟩
  · exact (processUpTo_invariant E s b (fun t => t.rotation = 0) h1 (fun _ _ ht => ht) _)
  · exact (processUpTo_invariant E s b (fun t => t.mass = 0) h2 (fun _ _ ht => ht) _)
  · refine processUpTo_invariant E s b (fun t => t.rotationSmoothed = 0) ?_
      (fun _ _ ht => ht) _
    show s.rotationSmoothed + torqueSpeed s * (s.rotation - s.rotationSmoothed) = 0
    rw [h1, h3]; ring
  · exact (processUpTo_sr E s b _).trans h4
  · have := key.1
    rw [process_eq]
    show (sampleLoop E (blockConsts E s) 0 _ b.numSamples (blockState s, b.clear)).1.spectralPhase
      = _
    rw [this]
    show s.spectralPhase + (b.numSamples : ℚ) * (1 / 32000000) = _
    ring

/-- After `k` blocks of 512 samples the phase is `512 k / 32000000`, up to 62500
blocks. -/
theorem processBlocks_slowRotation (E : Prims) (b : AudioBuffer) (hb : b.numSamples = 512)
    (k : Nat) (hk : k ≤ 62500) (s : AxisEngine) (h : SlowRotation s)
    (h0 : s.spectralPhase = 0) :
    SlowRotation (processBlocks E s (List.replicate k b))
      ∧ (processBlocks E s (List.replicate k b)).spectralPhase = 512 * k / 32000000 := by
  induction k with
  | zero => exact ⟨h, by simp [processBlocks, h0]⟩
  | succ j ih =>
    obtain ⟨ih1, ih2⟩ := ih (Nat.le_of_succ_le hk)
    have happ : processBlocks E s (List.replicate (j + 1) b)
        = (process E (processBlocks E s (List.replicate j b)) b).1 := by
      simp [processBlocks, List.replicate_succ', List.foldl_append]
    have hj : (j : ℚ) + 1 ≤ 62500 := by exact_mod_cast hk
    have hle : (processBlocks E s (List.replicate j b)).spectralPhase
        + b.numSamples / 32000000 ≤ 1 := by
      rw [ih2, hb]
      push_cast
      linarith
    obtain ⟨p1, p2⟩ := process_slowRotation E _ b ih1 hle
    rw [happ]
    refine ⟨p1, ?_⟩
    rw [p2, ih2, hb]
    push_cast
    ring

/-- C5 (the code at the failing input): a new engine with rotation and mass set to 0 and
prepared at 16000 Hz, after 62500 stereo blocks of 512 samples (2000 seconds), has
`spectralPhase` equal to 1: the test `spectralPhase > 1.0f` does not fire at 1, so the
phase is outside `[0, 1)`.  (In binary32 the increment 3.125e-8 exceeds half an ulp below
1, so the accumulator also arrives at exactly 1.0f, and `1.0f + 3.125e-8f` rounds back to
1.0f: it is at 1 from then on.) -/
theorem spectralPhase_reaches_one :
    (processBlocks refPrims (prepare (setMass (setRotation (AxisEngine.init 0) 0) 0) 16000)
      (List.replicate 62500 (AudioBuffer.silent 512))).spectralPhase = 1 := by
  have h : SlowRotation (prepare (setMass (setRotation (AxisEngine.init 0) 0) 0) 16000) := by
    refine ⟨?_, ?_, rfl, rfl⟩
    · show jlimit 0 1 0 = 0
      norm_num [jlimit]
    · show jlimit 0 1 0 = 0
      norm_num [jlimit]
  have := (processBlocks_slowRotation refPrims (AudioBuffer.silent 512) rfl 62500
    (le_refl _) _ h rfl).2
  rw [this]
  norm_num

/-! ## C8: when the drift targets change -/

theorem sampleStep_random (E : Prims) (c : Block) (i : Nat) (s : AxisEngine) :
    (sampleStep E c i s).1.random
      = if decide ((i : Int) % c.driftInterval = 0) = true
        then (E.nextFloat (E.nextFloat s.random).2).2 else s.random := rfl

/-- Inside one block the loop index decides: an iteration whose index is not a multiple of
`driftInterval` keeps both targets and the generator. -/
theorem sampleStep_keeps_targets (E : Prims) (c : Block) (i : Nat) (s : AxisEngine)
    (h : (i : Int) % c.driftInterval ≠ 0) :
    (sampleStep E c i s).1.driftTargetA = s.driftTargetA
      ∧ (sampleStep E c i s).1.driftTargetB = s.driftTargetB
      ∧ (sampleStep E c i s).1.random = s.random := by
  rw [sampleStep_driftTargetA, sampleStep_driftTargetB, sampleStep_random]
  simp [h]

/-- The iteration with loop index 0, the first of every block, redraws both targets. -/
theorem sampleStep_zero_retargets (E : Prims) (c : Block) (s : AxisEngine) :
    (sampleStep E c 0 s).1.driftTargetA = (E.nextFloat s.random).1 * 2.0 - 1.0
      ∧ (sampleStep E c 0 s).1.driftTargetB
          = (E.nextFloat (E.nextFloat s.random).2).1 * 2.0 - 1.0
      ∧ (sampleStep E c 0 s).1.random = (E.nextFloat (E.nextFloat s.random).2).2 := by
  rw [sampleStep_driftTargetA, sampleStep_driftTargetB, sampleStep_random]
  simp

/-- A block of `n ≥ 1` samples no longer than `driftInterval` redraws the targets exactly
once, at its first sample. -/
theorem processUpTo_targets (E : Prims) (s : AxisEngine) (b : AudioBuffer) (n : Nat)
    (hn : (n : Int) < driftInterval s) :
    (processUpTo E s b (n + 1)).1.driftTargetA = (E.nextFloat s.random).1 * 2.0 - 1.0
      ∧ (processUpTo E s b (n + 1)).1.driftTargetB
          = (E.nextFloat (E.nextFloat s.random).2).1 * 2.0 - 1.0
      ∧ (processUpTo E s b (n + 1)).1.random = (E.nextFloat (E.nextFloat s.random).2).2 := by
  induction n with
  | zero =>
    rw [processUpTo_succ_fst, processUpTo_zero]
    exact sampleStep_zero_retargets E _ _
  | succ k ih =>
    have hk : ((k : Nat) : Int) < driftInterval s := by
      push_cast at hn; linarith
    obtain ⟨i1, i2, i3⟩ := ih hk
    have hmod : ((k + 1 : Nat) : Int) % (blockConsts E s).driftInterval ≠ 0 := by
      show ((k + 1 : Nat) : Int) % driftInterval s ≠ 0
      rw [Int.emod_eq_of_lt (by positivity) hn]
      exact_mod_cast Nat.succ_ne_zero k
    obtain ⟨k1, k2, k3⟩ := sampleStep_keeps_targets E (blockConsts E s) (k + 1)
      (processUpTo E s b (k + 1)).1 hmod
    rw [processUpTo_succ_fst E s b (k + 1), k1, k2, k3]
    exact ⟨i1, i2, i3⟩

/-- A block of at least one and at most `driftInterval` samples redraws the targets
exactly once, at its first sample. -/
theorem process_targets (E : Prims) (s : AxisEngine) (b : AudioBuffer)
    (hpos : 0 < b.numSamples) (hle : (b.numSamples : Int) ≤ driftInterval s) :
    (process E s b).1.driftTargetA = (E.nextFloat s.random).1 * 2.0 - 1.0
      ∧ (process E s b).1.driftTargetB
          = (E.nextFloat (E.nextFloat s.random).2).1 * 2.0 - 1.0
      ∧ (process E s b).1.random = (E.nextFloat (E.nextFloat s.random).2).2 := by
  obtain ⟨m, hm⟩ := Nat.exists_eq_succ_of_ne_zero (Nat.pos_iff_ne_zero.mp hpos)
  rw [process_eq, hm]
  apply processUpTo_targets
  rw [hm] at hle
  push_cast at hle ⊢
  linarith

theorem process_sr (E : Prims) (s : AxisEngine) (b : AudioBuffer) :
    (process E s b).1.sr = s.sr :=
  processUpTo_sr E s b b.numSamples

theorem process_wear (E : Prims) (s : AxisEngine) (b : AudioBuffer) :
    (process E s b).1.wear = s.wear :=
  processUpTo_invariant E s b (fun t => t.wear = s.wear) rfl (fun _ _ ht => ht) b.numSamples

/-- The first iteration of every block: the targets are those of the previous block before
it and freshly drawn after it. -/
theorem process_first_iteration (E : Prims) (s : AxisEngine) (b : AudioBuffer) :
    (processUpTo E s b 0).1.driftTargetA = s.driftTargetA
      ∧ (processUpTo E s b 1).1.driftTargetA = (E.nextFloat s.random).1 * 2.0 - 1.0 := by
  refine ⟨rfl, ?_⟩
  rw [processUpTo_succ_fst, processUpTo_zero]
  exact (sampleStep_zero_retargets E _ _).1

/-- C8 (the code at the failing input): a new engine prepared at 44100 Hz (wear 0.2, so
`driftInterval` is 91875) processes two stereo blocks of 512 samples.  At the start of the
second block 512 samples have been processed and 512 is not a multiple of 91875, yet the
first iteration of the second block replaces `driftTargetA`: it is -1 before that
iteration and -984339929/1073741824 after it. -/
theorem drift_retargets_at_block_start :
    driftInterval (process refPrims (prepare (AxisEngine.init 0) 44100)
        (AudioBuffer.silent 512)).1 = 91875
    ∧ (512 : Int) % 91875 ≠ 0
    ∧ (processUpTo refPrims (process refPrims (prepare (AxisEngine.init 0) 44100)
          (AudioBuffer.silent 512)).1 (AudioBuffer.silent 512) 0).1.driftTargetA = -1
    ∧ (processUpTo refPrims (process refPrims (prepare (AxisEngine.init 0) 44100)
          (AudioBuffer.silent 512)).1 (AudioBuffer.silent 512) 1).1.driftTargetA
        = -984339929 / 1073741824 := by
  have hq : (44100 : ℚ) / jmap 0.2 0.1 2.0 = 91875 := by norm_num [jmap]
  have hint : ∀ t : AxisEngine, t.sr = 44100 → t.wear = 0.2 → driftInterval t = 91875 := by
    intro t h1 h2
    rw [driftInterval, driftSpeedHz, h1, h2, hq, castInt_of_nonneg _ (by norm_num),
      jmax_eq_max]
    have : ⌊(91875 : ℚ)⌋ = 91875 := Int.floor_intCast 91875
    rw [this]
    decide
  have hi0 : driftInterval (prepare (AxisEngine.init 0) 44100) = 91875 := hint _ rfl rfl
  have hnum : (AudioBuffer.silent 512).numSamples = 512 := rfl
  have h1 := process_targets refPrims (prepare (AxisEngine.init 0) 44100)
    (AudioBuffer.silent 512) (by rw [hnum]; norm_num) (by rw [hi0, hnum]; norm_num)
  have hsr := process_sr refPrims (prepare (AxisEngine.init 0) 44100) (AudioBuffer.silent 512)
  have hwear :=
    process_wear refPrims (prepare (AxisEngine.init 0) 44100) (AudioBuffer.silent 512)
  have hrand0 : (prepare (AxisEngine.init 0) 44100).random = 0 := rfl
  obtain ⟨f0, f1⟩ := process_first_iteration refPrims
    (process refPrims (prepare (AxisEngine.init 0) 44100) (AudioBuffer.silent 512)).1
    (AudioBuffer.silent 512)
  refine ⟨hint _ (hsr.trans rfl) (hwear.trans rfl), by decide, ?_, ?_⟩
  · rw [f0, h1.1, hrand0]
    norm_num [refPrims, juceNextFloat]
  · rw [f1, h1.2.2, hrand0]
    norm_num [refPrims, juceNextFloat]

/-! ## C11: the buffer content before the call -/

/-- The cleared buffer depends only on the number of samples and of channels. -/
theorem clear_eq_of_shape (b1 b2 : AudioBuffer) (hn : b1.numSamples = b2.numSamples)
    (hc : b1.getNumChannels = b2.getNumChannels) : b1.clear = b2.clear := by
  simp only [AudioBuffer.getNumChannels] at hc
  simp only [AudioBuffer.clear, List.map_const', hn, hc]

theorem clear_wellFormed (b : AudioBuffer) : b.clear.WellFormed := by
  intro ch hch
  simp only [AudioBuffer.clear, List.mem_map] at hch
  obtain ⟨_, _, rfl⟩ := hch
  exact List.length_replicate _ _

theorem clear_numChannels (b : AudioBuffer) : b.clear.getNumChannels = b.getNumChannels := by
  simp [AudioBuffer.clear, AudioBuffer.getNumChannels]

theorem write_numSamples (b : AudioBuffer) (ch i : Nat) (v : ℚ) :
    (b.write ch i v).numSamples = b.numSamples := rfl

theorem write_numChannels (b : AudioBuffer) (ch i : Nat) (v : ℚ) :
    (b.write ch i v).getNumChannels = b.getNumChannels := by
  simp [AudioBuffer.write, AudioBuffer.getNumChannels]

theorem write_wellFormed (b : AudioBuffer) (ch i : Nat) (v : ℚ) (hb : b.WellFormed) :
    (b.write ch i v).WellFormed := by
  intro l hl
  simp only [AudioBuffer.write] at hl
  rcases List.mem_or_eq_of_mem_set hl with hl | rfl
  · exact hb l hl
  · by_cases hlen : ch < b.channels.length
    · rw [List.length_set, List.getD_eq_getElem _ _ hlen]
      exact hb _ (List.getElem_mem hlen)
    · rw [List.set_eq_of_length_le (not_lt.mp hlen)] at hl
      exact hb _ hl

/-- A write is read back at its own position. -/
theorem getSample_write_same (b : AudioBuffer) (ch i : Nat) (v : ℚ) (hb : b.WellFormed)
    (hch : ch < b.getNumChannels) (hi : i < b.numSamples) :
    (b.write ch i v).getSample ch i = v := by
  have hlen : (b.channels[ch]).length = b.numSamples := hb _ (List.getElem_mem hch)
  simp only [AudioBuffer.getNumChannels] at hch
  simp [AudioBuffer.getSample, AudioBuffer.write, hch, hlen, hi]

/-- A write leaves every other position as it was. -/
theorem getSample_write_other (b : AudioBuffer) (ch i ch2 i2 : Nat) (v : ℚ)
    (h : ch2 ≠ ch ∨ i2 ≠ i) : (b.write ch i v).getSample ch2 i2 = b.getSample ch2 i2 := by
  simp only [AudioBuffer.getSample, AudioBuffer.write, List.getD_eq_getElem?_getD]
  by_cases hc : ch = ch2
  · subst hc
    have hi : i ≠ i2 := by
      rcases h with h | h
      · exact absurd rfl h
      · exact fun e => h e.symm
    by_cases hlen : ch < b.channels.length
    · simp [hlen, hi]
    · rw [List.set_eq_of_length_le (not_lt.mp hlen)]
  · rw [List.getElem?_set_ne hc]

/-- The buffer inside the sample loop: after `n` iterations the shape is that of the
start, position `i < n` of the right channel holds the right sample of iteration `i`, and,
when the two write pointers are different channels, position `i` of the left channel holds
the left sample of iteration `i`. -/
theorem sampleLoop_buffer (E : Prims) (c : Block) (l r : Nat) (sb : AxisEngine × AudioBuffer)
    (hw : sb.2.WellFormed) (hl : l < sb.2.getNumChannels) (hr : r < sb.2.getNumChannels)
    (n : Nat) (hn : n ≤ sb.2.numSamples) :
    (sampleLoop E c l r n sb).2.WellFormed
      ∧ (sampleLoop E c l r n sb).2.numSamples = sb.2.numSamples
      ∧ (sampleLoop E c l r n sb).2.getNumChannels = sb.2.getNumChannels
      ∧ ∀ i, i < n →
          (sampleLoop E c l r n sb).2.getSample r i
              = (sampleStep E c i (sampleLoop E c l r i sb).1).2.2
          ∧ (l ≠ r → (sampleLoop E c l r n sb).2.getSample l i
              = (sampleStep E c i (sampleLoop E c l r i sb).1).2.1) := by
  induction n with
  | zero =>
    exact ⟨hw, rfl, rfl, fun i hi => absurd hi (Nat.not_lt_zero i)⟩
  | succ k ih =>
    obtain ⟨w, e1, e2, hprev⟩ := ih (Nat.le_of_succ_le hn)
    have hk : k < (sampleLoop E c l r k sb).2.numSamples := by
      rw [e1]; exact hn
    rw [sampleLoop_succ]
    simp only [loopBody]
    have w1 := write_wellFormed _ l k (sampleStep E c k (sampleLoop E c l r k sb).1).2.1 w
    have w2 := write_wellFormed _ r k (sampleStep E c k (sampleLoop E c l r k sb).1).2.2 w1
    refine ⟨w2, e1, ?_, ?_⟩
    · rw [write_numChannels, write_numChannels, e2]
    · intro i hi
      rcases Nat.lt_succ_iff_lt_or_eq.mp hi with hlt | heq
      · obtain ⟨p1, p2⟩ := hprev i hlt
        have hne : i ≠ k := Nat.ne_of_lt hlt
        constructor
        · rw [getSample_write_other _ _ _ _ _ _ (Or.inr hne),
            getSample_write_other _ _ _ _ _ _ (Or.inr hne)]
          exact p1
        · intro hlr
          rw [getSample_write_other _ _ _ _ _ _ (Or.inr hne),
            getSample_write_other _ _ _ _ _ _ (Or.inr hne)]
          exact p2 hlr
      · subst heq
        constructor
        · apply getSample_write_same _ _ _ _ w1
          · rw [write_numChannels, e2]; exact hr
          · exact hk
        · intro hlr
          rw [getSample_write_other _ _ _ _ _ _ (Or.inl hlr)]
          apply getSample_write_same _ _ _ _ w
          · rw [e2]; exact hl
          · exact hk

theorem processUpTo_congr (E : Prims) (s : AxisEngine) (b1 b2 : AudioBuffer)
    (h : b1.clear = b2.clear) (n : Nat) : processUpTo E s b1 n = processUpTo E s b2 n := by
  simp only [processUpTo, h]

/-- C11: `process` ignores the content of the buffer it is given.  For two buffers with
the same number of samples and of channels, whatever they hold, `process` from the same
engine state yields the same output buffer and the same engine state.  With at least one
channel, every position `i < numSamples` of the output channels is overwritten: the right
channel (channel 1, or channel 0 of a mono buffer) holds the right sample of iteration
`i`, and with two or more channels channel 0 holds the left sample of iteration `i`. -/
theorem process_ignores_buffer_content (E : Prims) (s : AxisEngine) (b1 b2 : AudioBuffer)
    (hn : b1.numSamples = b2.numSamples) (hc : b1.getNumChannels = b2.getNumChannels) :
    process E s b1 = process E s b2
      ∧ (process E s b1).2.numSamples = b1.numSamples
      ∧ (process E s b1).2.getNumChannels = b1.getNumChannels
      ∧ (0 < b1.getNumChannels → ∀ i, i < b1.numSamples →
          (process E s b1).2.getSample (if b1.getNumChannels > 1 then 1 else 0) i
              = (sampleStep E (blockConsts E s) i (processUpTo E s b1 i).1).2.2
          ∧ (b1.getNumChannels > 1 → (process E s b1).2.getSample 0 i
              = (sampleStep E (blockConsts E s) i (processUpTo E s b1 i).1).2.1)) := by
  have hclear := clear_eq_of_shape b1 b2 hn hc
  have hnc := clear_numChannels b1
  refine ⟨?_, ?_, ?_, ?_⟩
  · rw [process_eq, process_eq, ← hn]
    exact processUpTo_congr E s b1 b2 hclear _
  · exact sampleLoop_invariant_pair E (blockConsts E s) 0
      (if b1.clear.getNumChannels > 1 then 1 else 0)
      (fun sb => sb.2.numSamples = b1.numSamples)
      (fun i sb hsb => hsb) b1.numSamples (blockState s, b1.clear) rfl
  · have key := sampleLoop_invariant_pair E (blockConsts E s) 0
      (if b1.clear.getNumChannels > 1 then 1 else 0)
      (fun sb => sb.2.getNumChannels = b1.getNumChannels)
      (fun i sb hsb => by
        show ((sb.2.write _ _ _).write _ _ _).getNumChannels = _
        rw [write_numChannels, write_numChannels]; exact hsb)
      b1.numSamples (blockState s, b1.clear) hnc
    exact key
  · intro hpos i hi
    have h := sampleLoop_buffer E (blockConsts E s) 0
      (if b1.clear.getNumChannels > 1 then 1 else 0) (blockState s, b1.clear)
      (clear_wellFormed b1) (by rw [hnc]; exact hpos)
      (by rw [hnc]; split_ifs with h1 <;> omega) b1.numSamples (le_refl _)
    obtain ⟨q1, q2⟩ := h.2.2.2 i hi
    constructor
    · rw [← hnc]
      exact q1
    · intro hgt
      apply q2
      rw [hnc, if_pos hgt]
      exact Nat.zero_ne_one

/-- C11, instance: a new engine, a stereo buffer of two samples holding 1, 2, 3, 4 and a
silent one. -/
theorem process_ignores_buffer_content_witness :
    (⟨2, [[1, 2], [3, 4]]⟩ : AudioBuffer).numSamples = (AudioBuffer.silent 2).numSamples
    ∧ (⟨2, [[1, 2], [3, 4]]⟩ : AudioBuffer).getNumChannels
        = (AudioBuffer.silent 2).getNumChannels
    ∧ 0 < (⟨2, [[1, 2], [3, 4]]⟩ : AudioBuffer).getNumChannels
    ∧ process refPrims (AxisEngine.init 0) ⟨2, [[1, 2], [3, 4]]⟩
        = process refPrims (AxisEngine.init 0) (AudioBuffer.silent 2)
    ∧ ∀ i, i < 2 →
        (process refPrims (AxisEngine.init 0) ⟨2, [[1, 2], [3, 4]]⟩).2.getSample 1 i
          = (sampleStep refPrims (blockConsts refPrims (AxisEngine.init 0)) i
              (processUpTo refPrims (AxisEngine.init 0) ⟨2, [[1, 2], [3, 4]]⟩ i).1).2.2 :=
  ⟨rfl, rfl, by decide,
    (process_ignores_buffer_content refPrims (AxisEngine.init 0) ⟨2, [[1, 2], [3, 4]]⟩
      (AudioBuffer.silent 2) rfl rfl).1,
    fun i hi => ((process_ignores_buffer_content refPrims (AxisEngine.init 0)
      ⟨2, [[1, 2], [3, 4]]⟩ (AudioBuffer.silent 2) rfl rfl).2.2.2 (by decide) i hi).1⟩

/-! ## C7: the drift retarget interval in floating point -/

/-- With nothing rounded, the explicit-rounding interval is the `driftInterval` of the
exact model. -/
theorem driftIntervalR_exact (s : AxisEngine) :
    driftIntervalR Rounding.exact s.wear s.sr = driftInterval s := by
  simp only [driftIntervalR, driftSpeedHzR, Rounding.exact, driftInterval, driftSpeedHz, jmap]

/-- The rounded drift speed is at least the rounded literal `0.1f`, hence positive. -/
theorem driftSpeedHzR_ge (R : Rounding) (wear : ℚ) (hw : 0 ≤ wear) :
    R.r32 0.1 ≤ driftSpeedHzR R wear := by
  have h1 : R.r32 0.1 ≤ R.r32 2.0 := R.mono32 (by norm_num)
  have h2 : 0 ≤ R.r32 (R.r32 2.0 - R.r32 0.1) := by
    have := R.mono32 (sub_nonneg.mpr h1)
    rwa [R.zero32] at this
  have h3 : 0 ≤ R.r32 (wear * R.r32 (R.r32 2.0 - R.r32 0.1)) := by
    have := R.mono32 (mul_nonneg hw h2)
    rwa [R.zero32] at this
  have h4 : R.r32 0.1 ≤ R.r32 0.1 + R.r32 (wear * R.r32 (R.r32 2.0 - R.r32 0.1)) := by
    linarith
  have := R.mono32 h4
  rwa [R.idem32] at this

/-- C7 (amended): for wear in `[0, 1]` and a positive sample rate, under any rounding of
the floating-point operations that leaves the literal `0.1f` positive, the drift retarget
interval is `max (1, floor q)` where `q` is the quotient `sr / driftSpeedHz` as the
program computes it (truncated, not rounded to nearest); it is at least 1, and the
divisor `driftSpeedHz` is positive. -/
theorem driftInterval_truncates (R : Rounding) (hR : 0 < R.r32 0.1) (wear sr : ℚ)
    (hw : 0 ≤ wear ∧ wear ≤ 1) (hsr : 0 < sr) :
    driftIntervalR R wear sr = max 1 ⌊R.r64 (sr / driftSpeedHzR R wear)⌋
      ∧ 1 ≤ driftIntervalR R wear sr
      ∧ 0 < driftSpeedHzR R wear := by
  have hpos : 0 < driftSpeedHzR R wear := lt_of_lt_of_le hR (driftSpeedHzR_ge R wear hw.1)
  have hq : 0 ≤ R.r64 (sr / driftSpeedHzR R wear) := by
    have := R.mono64 (le_of_lt (div_pos hsr hpos))
    rwa [R.zero64] at this
  have heq : driftIntervalR R wear sr = max 1 ⌊R.r64 (sr / driftSpeedHzR R wear)⌋ := by
    rw [driftIntervalR, castInt_of_nonneg _ hq, jmax_eq_max]
  exact ⟨heq, heq ▸ le_max_left _ _, hpos⟩

/-- C7 (amended), instance: exact arithmetic, wear 0.2 at 44100 Hz. -/
theorem driftInterval_truncates_witness :
    (0 : ℚ) < Rounding.exact.r32 0.1 ∧ ((0 : ℚ) ≤ 0.2 ∧ (0.2 : ℚ) ≤ 1) ∧ (0 : ℚ) < 44100
    ∧ driftIntervalR Rounding.exact 0.2 44100
        = max 1 ⌊Rounding.exact.r64 (44100 / driftSpeedHzR Rounding.exact 0.2)⌋
    ∧ 1 ≤ driftIntervalR Rounding.exact 0.2 44100 :=
  ⟨by norm_num [Rounding.exact], by norm_num, by norm_num,
    (driftInterval_truncates Rounding.exact (by norm_num [Rounding.exact]) 0.2 44100
      (by norm_num) (by norm_num)).1,
    (driftInterval_truncates Rounding.exact (by norm_num [Rounding.exact]) 0.2 44100
      (by norm_num) (by norm_num)).2.1⟩

/-- The interval at wear 0 when the literal `0.1f` is rounded as in binary32, to
13421773/134217728, which is above 1/10: for a sample rate `sr` and an integer `k` with
`k ≤ sr / 0.1f < k + 1`, both `k` and a bound `u < k + 1` of the quotient fixed by the
`double` rounding, the interval is `k`. -/
theorem driftIntervalR_wear_zero (R : Rounding) (h01 : R.r32 0.1 = 13421773 / 134217728)
    (sr : ℚ) (k : Int) (u : ℚ) (hk1 : 1 ≤ k) (hfixk : R.r64 (k : ℚ) = (k : ℚ))
    (hfixu : R.r64 u = u) (hlo : (k : ℚ) ≤ sr / (13421773 / 134217728))
    (hhi : sr / (13421773 / 134217728) ≤ u) (hu : u < (k : ℚ) + 1) :
    driftIntervalR R 0 sr = k := by
  have hs : driftSpeedHzR R 0 = 13421773 / 134217728 := by
    rw [driftSpeedHzR, zero_mul, R.zero32, add_zero, R.idem32, h01]
  have h1 : (k : ℚ) ≤ R.r64 (sr / (13421773 / 134217728)) := by
    have := R.mono64 hlo
    rwa [hfixk] at this
  have h2 : R.r64 (sr / (13421773 / 134217728)) ≤ u := by
    have := R.mono64 hhi
    rwa [hfixu] at this
  have hk0 : (0 : ℚ) ≤ (k : ℚ) := by exact_mod_cast (le_trans (by norm_num) hk1 : (0 : Int) ≤ k)
  rw [driftIntervalR, hs, castInt_of_nonneg _ (le_trans hk0 h1), jmax_eq_max]
  have hfloor : ⌊R.r64 (sr / (13421773 / 134217728))⌋ = k := by
    rw [Int.floor_eq_iff]
    exact ⟨h1, lt_of_le_of_lt h2 hu⟩
  rw [hfloor]
  exact max_eq_right hk1

/-- The program at wear 0: 440999, 479999 and 959999 samples at 44100, 48000 and 96000 Hz,
one less than the exact quotients 441000, 480000 and 960000. -/
theorem driftIntervalR_grid_values :
    driftIntervalR Rounding.grid 0 44100 = 440999
    ∧ driftIntervalR Rounding.grid 0 48000 = 479999
    ∧ driftIntervalR Rounding.grid 0 96000 = 959999 := by
  have h01 : Rounding.grid.r32 0.1 = 13421773 / 134217728 := by
    simp only [Rounding.grid]
    have : ⌈(0.1 : ℚ) * 134217728⌉ = 13421773 := by
      rw [Int.ceil_eq_iff]; constructor <;> norm_num
    rw [this]; norm_num
  refine ⟨?_, ?_, ?_⟩
  · exact driftIntervalR_wear_zero Rounding.grid h01 44100 440999 (440999 + 1023 / 1024)
      (by norm_num) rfl rfl (by norm_num) (by norm_num) (by norm_num)
  · exact driftIntervalR_wear_zero Rounding.grid h01 48000 479999 (479999 + 1023 / 1024)
      (by norm_num) rfl rfl (by norm_num) (by norm_num) (by norm_num)
  · exact driftIntervalR_wear_zero Rounding.grid h01 96000 959999 (959999 + 1023 / 1024)
      (by norm_num) rfl rfl (by norm_num) (by norm_num) (by norm_num)

/-! ## C12: the stereo crossfade weights -/

theorem jlimitX_fin (lo hi v : ℚ) :
    jlimitX (FVal.fin lo) (FVal.fin hi) (FVal.fin v) = FVal.fin (jlimit lo hi v) := by
  simp only [jlimitX, jlimit, FVal.lt, decide_eq_true_eq]
  split_ifs <;> rfl

theorem diodeClipX_fin (x drive asym : ℚ) (hd : 0 ≤ drive) (ha : 0 ≤ asym) :
    diodeClipX (FVal.fin x) (FVal.fin drive) (FVal.fin asym)
      = FVal.fin (diodeClip x drive asym) := by
  have e0 : (0.0 : ℚ) = 0 := by norm_num
  have e1 : (1.0 : ℚ) = 1 := by norm_num
  have h1 : (1 : ℚ) + drive * |x| ≠ 0 := by
    have := mul_nonneg hd (abs_nonneg x)
    linarith
  have h2 : (1 : ℚ) + drive * asym * |x| ≠ 0 := by
    have := mul_nonneg (mul_nonneg hd ha) (abs_nonneg x)
    linarith
  simp only [diodeClipX, diodeClip, FVal.ge, FVal.mul, FVal.add, FVal.abs, FVal.div, e0, e1,
    decide_eq_true_eq, ge_iff_le]
  split_ifs <;> rfl

/-- On finite values the cross-modulation part is the one of the exact model: applied to
the filter outputs of an iteration, to the previous `crossModA`, `crossModB` and to the
cutoffs passed to the filters, it gives the `crossModA`, `crossModB`, `smoothedFcA` and
`smoothedFcB` of the state after the iteration. -/
theorem sampleStep_crossModX (E : Prims) (c : Block) (i : Nat) (s : AxisEngine) :
    crossModX (FVal.fin c.crossAmount)
        (FVal.fin (filterOutputs E c i s).outA_L) (FVal.fin (filterOutputs E c i s).outA_R)
        (FVal.fin (filterOutputs E c i s).outB_L) (FVal.fin (filterOutputs E c i s).outB_R)
        (FVal.fin s.crossModA) (FVal.fin s.crossModB)
        (FVal.fin (sampleStep E c i s).1.filterA_L.cutoffFrequency)
        (FVal.fin (sampleStep E c i s).1.filterB_L.cutoffFrequency)
      = (FVal.fin (sampleStep E c i s).1.crossModA, FVal.fin (sampleStep E c i s).1.crossModB,
          FVal.fin (sampleStep E c i s).1.smoothedFcA,
          FVal.fin (sampleStep E c i s).1.smoothedFcB) := by
  simp only [crossModX, FVal.sub, FVal.neg, FVal.add, FVal.mul, FVal.abs, jlimitX_fin,
    ← sub_eq_add_neg]
  rfl

/-- On finite values the output part is the one of the exact model: applied to the two
filter outputs of a channel and its clamped weight it gives the written sample and the
damping state of the iteration. -/
theorem sampleStep_postX (E : Prims) (c : Block) (i : Nat) (s : AxisEngine)
    (hd : 0 ≤ jmap s.wear 0.5 6.0) (ha : 0 ≤ jmap c.bodyHigh 1.0 2.2) :
    postX (FVal.fin (filterOutputs E c i s).outA_L) (FVal.fin (filterOutputs E c i s).outB_L)
        (FVal.fin (jlimit 0.0 1.0 (weightL E (sampleStep E c i s).1)))
        (FVal.fin (jmap s.wear 0.5 6.0)) (FVal.fin (jmap c.bodyHigh 1.0 2.2))
        (FVal.fin s.body) (FVal.fin c.g) (FVal.fin c.dampMix) (FVal.fin s.dampL)
      = (FVal.fin (sampleStep E c i s).2.1, FVal.fin (sampleStep E c i s).1.dampL)
    ∧ postX (FVal.fin (filterOutputs E c i s).outA_R)
        (FVal.fin (filterOutputs E c i s).outB_R)
        (FVal.fin (jlimit 0.0 1.0 (weightR E (sampleStep E c i s).1)))
        (FVal.fin (jmap s.wear 0.5 6.0)) (FVal.fin (jmap c.bodyHigh 1.0 2.2))
        (FVal.fin s.body) (FVal.fin c.g) (FVal.fin c.dampMix) (FVal.fin s.dampR)
      = (FVal.fin (sampleStep E c i s).2.2, FVal.fin (sampleStep E c i s).1.dampR) := by
  constructor
  · simp only [postX, FVal.sub, FVal.neg, FVal.add, FVal.mul, diodeClipX_fin _ _ _ hd ha,
      ← sub_eq_add_neg]
    rfl
  · simp only [postX, FVal.sub, FVal.neg, FVal.add, FVal.mul, diodeClipX_fin _ _ _ hd ha,
      ← sub_eq_add_neg]
    rfl

theorem FVal.add_nan_left (a : FVal) : FVal.add FVal.nan a = FVal.nan := by
  cases a <;> rfl

theorem FVal.add_nan_right (a : FVal) : FVal.add a FVal.nan = FVal.nan := by
  cases a <;> rfl

theorem FVal.mul_nan_left (a : FVal) : FVal.mul FVal.nan a = FVal.nan := by
  cases a <;> rfl

theorem FVal.mul_nan_right (a : FVal) : FVal.mul a FVal.nan = FVal.nan := by
  cases a <;> rfl

theorem FVal.sub_nan_left (a : FVal) : FVal.sub FVal.nan a = FVal.nan := by
  cases a <;> rfl

theorem FVal.div_nan_left (a : FVal) : FVal.div FVal.nan a = FVal.nan := by
  cases a <;> rfl

theorem FVal.ge_nan_left (a : FVal) : FVal.ge FVal.nan a = false := by
  cases a <;> rfl

/-- NaN passes the diode clip: the comparison is false and the quotient is NaN. -/
theorem diodeClipX_nan (drive asym : FVal) : diodeClipX FVal.nan drive asym = FVal.nan := by
  simp only [diodeClipX, FVal.ge_nan_left, FVal.div_nan_left]
  rfl

/-- A positive infinity entering the diode clip leaves it as NaN: the quotient of two
infinities. -/
theorem diodeClipX_pinf (asym : FVal) (d : ℚ) (hd : 0 < d) :
    diodeClipX FVal.pinf (FVal.fin d) asym = FVal.nan := by
  have h1 : FVal.ge FVal.pinf (FVal.fin 0.0) = true := rfl
  have h2 : FVal.mul (FVal.fin d) (FVal.abs FVal.pinf) = FVal.pinf := by
    show FVal.infTimes true d = FVal.pinf
    simp [FVal.infTimes, ne_of_gt hd, hd]
  simp only [diodeClipX, h1, h2, if_true]
  rfl

/-- NaN at the diode clip reaches the written sample and the damping state. -/
theorem postX_of_clip_nan (outA outB weight diodeDrive asym body g dampMix damp : FVal)
    (h : diodeClipX (FVal.add (FVal.mul outA weight)
        (FVal.mul outB (FVal.sub (FVal.fin 1.0) weight))) diodeDrive asym = FVal.nan) :
    postX outA outB weight diodeDrive asym body g dampMix damp = (FVal.nan, FVal.nan) := by
  simp only [postX, h, FVal.mul_nan_left, FVal.mul_nan_right, FVal.sub_nan_left,
    FVal.add_nan_left, FVal.add_nan_right]

/-- A filter stage of pair A that returns NaN makes the written sample NaN, whatever the
other values are. -/
theorem postX_nan (outB weight diodeDrive asym body g dampMix damp : FVal) :
    postX FVal.nan outB weight diodeDrive asym body g dampMix damp = (FVal.nan, FVal.nan) := by
  apply postX_of_clip_nan
  rw [FVal.mul_nan_left, FVal.add_nan_left, diodeClipX_nan]

/-- C9 (counterexample): with the block constants of a new engine (diode drive 8/5,
asymmetry 1, body 1/2, damping mix 13/40) and weight 1/2, a pair-A filter stage that returns
`+Inf` while the pair-B stage returns 0 makes the written sample NaN, which is not within
`[-4, 4]`. -/
theorem output_not_bounded_on_infinite_filter_output :
    (postX FVal.pinf (FVal.fin 0) (FVal.fin (1 / 2)) (FVal.fin (8 / 5)) (FVal.fin 1)
        (FVal.fin (1 / 2)) (FVal.fin (1 / 2)) (FVal.fin (13 / 40)) (FVal.fin 0)).1 = FVal.nan
    ∧ ¬ FVal.Within (-4) 4
        (postX FVal.pinf (FVal.fin 0) (FVal.fin (1 / 2)) (FVal.fin (8 / 5)) (FVal.fin 1)
          (FVal.fin (1 / 2)) (FVal.fin (1 / 2)) (FVal.fin (13 / 40)) (FVal.fin 0)).1 := by
  have hmix : FVal.add (FVal.mul FVal.pinf (FVal.fin (1 / 2)))
      (FVal.mul (FVal.fin 0) (FVal.sub (FVal.fin 1.0) (FVal.fin (1 / 2)))) = FVal.pinf := by
    simp [FVal.mul, FVal.infTimes, FVal.sub, FVal.neg, FVal.add]
  have h := postX_of_clip_nan FVal.pinf (FVal.fin 0) (FVal.fin (1 / 2)) (FVal.fin (8 / 5))
    (FVal.fin 1) (FVal.fin (1 / 2)) (FVal.fin (1 / 2)) (FVal.fin (13 / 40)) (FVal.fin 0)
    (by rw [hmix]; exact diodeClipX_pinf _ (8 / 5) (by norm_num))
  rw [h]
  exact ⟨rfl, fun hw => hw⟩

end Axis
